import Mathlib

/-!
# Verification of `shesha/widgets/widget_ao.py` (COMPASS AO-loop GUI widget)

This file shallowly embeds the widget's own logic — dock naming and dispatch in
`updateDisplay`, display-refresh throttling and supervisor-call sequencing in
`loopOnce`, dock/overlay lifecycle in `loadConfig`, the Strehl-history deques,
and the button handlers `aoLoopClicked`, `aoLoopOpen`, `resetSR`, `run` — and
proves properties of that embedding.

Conventions:
* Python floats (wall-clock times, Strehl ratios, frame rates) are modelled as
  rationals `ℚ`; `nbiter` is an `Int` since it is decremented and compared to 0.
* Frame buffers (numpy arrays) are an abstract type parameter `F`; the external
  supervisor is a structure of functions producing values of `F`.
* Python `collections.deque(maxlen=m)` is modelled by `BDeque` below.
* Calls into the external supervisor object are recorded as explicit traces.
-/

namespace WidgetAO

/-! ## Decimal rendering and parsing of dock indices

The widget builds dock names with Python `'%s_%d' % i` formatting and recovers
the index with `int(key.split("_")[-1])`.  `natToChars` renders a natural
number in decimal (most-significant digit first), as `%d` does; `parseNat`
models `int(...)` on a string of decimal digits; `splitChar` models Python
`str.split` with a one-character separator.
-/

/-- Fuel-based decimal rendering; the digits of `n` are prepended to `acc`. -/
def natToCharsAux : Nat → Nat → List Char → List Char
  | 0, _, acc => acc
  | fuel + 1, n, acc =>
    let acc' := Nat.digitChar (n % 10) :: acc
    if n < 10 then acc' else natToCharsAux fuel (n / 10) acc'

/-- The decimal digit characters of `n`, most significant first (Python `'%d' % n`). -/
def natToChars (n : Nat) : List Char := natToCharsAux (n + 1) n []

/-- The decimal string of `n` (Python `'%d' % n`). -/
def natToString (n : Nat) : String := String.mk (natToChars n)

/-- Recursive characterization of the decimal digits, used for proofs. -/
def natDigits (n : Nat) : List Char :=
  if _h : n < 10 then [Nat.digitChar n]
  else natDigits (n / 10) ++ [Nat.digitChar (n % 10)]
decreasing_by exact Nat.div_lt_self (by omega) (by omega)

theorem natToCharsAux_eq (fuel : Nat) : ∀ n acc, n < fuel →
    natToCharsAux fuel n acc = natDigits n ++ acc := by
  induction fuel with
  | zero => intro n acc h; omega
  | succ f ih =>
    intro n acc h
    rw [natToCharsAux, natDigits]
    by_cases h10 : n < 10
    · simp only [h10, if_pos, dif_pos]
      rw [Nat.mod_eq_of_lt h10]
      rfl
    · simp only [h10, if_neg, dif_neg, not_false_iff]
      have hdiv : n / 10 < f := by
        have : n / 10 < n := Nat.div_lt_self (by omega) (by omega)
        omega
      rw [ih (n / 10) _ hdiv, List.append_assoc]
      rfl

theorem natToChars_eq (n : Nat) : natToChars n = natDigits n := by
  rw [natToChars, natToCharsAux_eq (n + 1) n [] (Nat.lt_succ_self n), List.append_nil]

theorem digitChar_isDigit {n : Nat} (h : n < 10) : (Nat.digitChar n).isDigit = true := by
  interval_cases n <;> decide

/-- Every character produced by decimal rendering is a digit. -/
theorem natToChars_isDigit (n : Nat) : ∀ c ∈ natToChars n, c.isDigit = true := by
  rw [natToChars_eq]
  induction n using natDigits.induct with
  | case1 n h =>
    rw [natDigits, dif_pos h]
    intro c hc
    rw [List.mem_singleton] at hc
    subst hc
    exact digitChar_isDigit h
  | case2 n h ih =>
    rw [natDigits, dif_neg h]
    intro c hc
    rcases List.mem_append.mp hc with h1 | h1
    · exact ih c h1
    · rw [List.mem_singleton] at h1
      subst h1
      exact digitChar_isDigit (Nat.mod_lt n (by omega))

/-- Python `int(s)` on a string of decimal digits. -/
def parseNat (l : List Char) : Nat :=
  l.foldl (fun a c => a * 10 + (c.toNat - '0'.toNat)) 0

theorem digitChar_val {n : Nat} (h : n < 10) :
    (Nat.digitChar n).toNat - '0'.toNat = n := by
  interval_cases n <;> decide

theorem parseNat_natDigits_aux (n : Nat) : ∀ a : Nat,
    (natDigits n).foldl (fun a c => a * 10 + (c.toNat - '0'.toNat)) a
      = a * 10 ^ (natDigits n).length + n := by
  induction n using natDigits.induct with
  | case1 n h =>
    intro a
    rw [natDigits, dif_pos h]
    simp only [List.foldl_cons, List.foldl_nil, List.length_singleton, pow_one]
    rw [digitChar_val h]
  | case2 n h ih =>
    intro a
    rw [natDigits, dif_neg h]
    rw [List.foldl_append, ih a]
    simp only [List.foldl_cons, List.foldl_nil, List.length_append, List.length_singleton]
    rw [digitChar_val (Nat.mod_lt n (by omega))]
    rw [pow_succ]
    have := Nat.div_add_mod n 10
    ring_nf
    omega

/-- Round trip: parsing the decimal rendering of `n` gives back `n`. -/
theorem parseNat_natToChars (n : Nat) : parseNat (natToChars n) = n := by
  rw [natToChars_eq, parseNat, parseNat_natDigits_aux n 0]
  simp

theorem natToChars_injective : Function.Injective natToChars := by
  intro m n h
  have := parseNat_natToChars m
  rw [h, parseNat_natToChars] at this
  omega

/-- Python `key.split(sep)` for a one-character separator. -/
def splitChar (sep : Char) : List Char → List (List Char)
  | [] => [[]]
  | c :: rest =>
    match splitChar sep rest with
    | [] => [[]]
    | h :: t => if c = sep then [] :: h :: t else (c :: h) :: t

theorem splitChar_ne_nil (sep : Char) (l : List Char) : splitChar sep l ≠ [] := by
  cases l with
  | nil => simp [splitChar]
  | cons c rest =>
    rw [splitChar]
    rcases hm : splitChar sep rest with _ | ⟨h, t⟩
    · simp
    · by_cases hc : c = sep <;> simp [hc]

theorem splitChar_of_not_mem (sep : Char) (l : List Char) (h : sep ∉ l) :
    splitChar sep l = [l] := by
  induction l with
  | nil => rfl
  | cons c rest ih =>
    rw [splitChar]
    have hc : c ≠ sep := fun he => h (he ▸ List.mem_cons_self c rest)
    have hrest : sep ∉ rest := fun hm => h (List.mem_cons_of_mem c hm)
    rw [ih hrest]
    simp [hc]

theorem splitChar_append (sep : Char) (l₁ l₂ : List Char) (h : sep ∉ l₁) :
    splitChar sep (l₁ ++ sep :: l₂) = l₁ :: splitChar sep l₂ := by
  induction l₁ with
  | nil =>
    rw [List.nil_append, splitChar]
    rcases hm : splitChar sep l₂ with _ | ⟨hd, t⟩
    · exact absurd hm (splitChar_ne_nil sep l₂)
    · simp
  | cons c rest ih =>
    have hc : c ≠ sep := fun he => h (he ▸ List.mem_cons_self c rest)
    have hrest : sep ∉ rest := fun hm => h (List.mem_cons_of_mem c hm)
    rw [List.cons_append, splitChar, ih hrest]
    simp [hc]

/-! ## Substring tests and dock names

`updateDisplay` dispatches on dock names with Python's `in` operator
(`"atm" in key`, ...), i.e. a contiguous-substring test, and recovers the dock
index with `int(key.split("_")[-1])`.  Dock names themselves are produced in
`loadConfig` with `'atm_%d' % atm`, `'wfs_%d' % wfs`, and so on.
-/

/-- Whether `pat` occurs at the start of `l`. -/
def isPre : List Char → List Char → Bool
  | [], _ => true
  | _ :: _, [] => false
  | a :: ps, b :: ls => a = b && isPre ps ls

/-- Whether `pat` occurs contiguously inside `hay` (Python `pat in hay`). -/
def hasSubL (pat : List Char) : List Char → Bool
  | [] => pat.isEmpty
  | c :: rest => isPre pat (c :: rest) || hasSubL pat rest

/-- Python's `pat in s` on strings. -/
def hasSub (s pat : String) : Bool := hasSubL pat.data s.data

theorem isPre_self_append (pat t : List Char) : isPre pat (pat ++ t) = true := by
  induction pat with
  | nil => rfl
  | cons a ps ih => simp [isPre, ih]

theorem isPre_subset {pat l : List Char} (h : isPre pat l = true) : ∀ c ∈ pat, c ∈ l := by
  induction pat generalizing l with
  | nil => intro c hc; simp at hc
  | cons a ps ih =>
    cases l with
    | nil => simp [isPre] at h
    | cons b ls =>
      simp only [isPre, Bool.and_eq_true, decide_eq_true_eq] at h
      intro c hc
      rcases List.mem_cons.mp hc with h1 | h1
      · exact h1 ▸ h.1 ▸ List.mem_cons_self b ls
      · exact List.mem_cons_of_mem b (ih h.2 c h1)

theorem hasSubL_append (pre pat t : List Char) : hasSubL pat (pre ++ pat ++ t) = true := by
  induction pre with
  | nil =>
    rw [List.nil_append]
    cases pat with
    | nil => cases t <;> simp [hasSubL, isPre]
    | cons a ps =>
      show hasSubL (a :: ps) (a :: (ps ++ t)) = true
      rw [hasSubL]
      have hp : isPre (a :: ps) (a :: (ps ++ t)) = true := isPre_self_append (a :: ps) t
      rw [hp, Bool.true_or]
  | cons c pre' ih =>
    show hasSubL pat (c :: (pre' ++ pat ++ t)) = true
    rw [hasSubL, ih, Bool.or_true]

theorem hasSubL_eq_false {pat hay : List Char} {c : Char} (hc : c ∈ pat) (hh : c ∉ hay) :
    hasSubL pat hay = false := by
  induction hay with
  | nil =>
    rw [hasSubL, List.isEmpty_eq_false_iff_exists_mem.mpr ⟨c, hc⟩]
  | cons b rest ih =>
    rw [hasSubL]
    have h1 : isPre pat (b :: rest) = false := by
      by_contra hp
      exact hh (isPre_subset (Bool.of_not_eq_false hp) c hc)
    have h2 : c ∉ rest := fun hm => hh (List.mem_cons_of_mem b hm)
    rw [h1, ih h2, Bool.or_self]

/-- A dock name `'<pre>_%d' % n` as produced by `loadConfig`. -/
def dockName (pre : String) (n : Nat) : String := pre ++ "_" ++ natToString n

theorem dockName_data (pre : String) (n : Nat) :
    (dockName pre n).data = pre.data ++ '_' :: natToChars n := by
  rw [dockName, String.data_append, String.data_append, List.append_assoc]
  rfl

theorem dockName_inj {pre : String} {m n : Nat}
    (he : dockName pre m = dockName pre n) : m = n := by
  have hd : (dockName pre m).data = (dockName pre n).data := by rw [he]
  rw [dockName_data, dockName_data, List.append_cancel_left_eq, List.cons.injEq] at hd
  exact natToChars_injective hd.2

/-- Python `pat in '<pre>_%d' % n` holds whenever `pat` occurs inside `pre ++ "_"`. -/
theorem hasSub_dockName_true (pre : String) (n : Nat) (pat : String)
    (l r : List Char) (hsplit : pre.data ++ ['_'] = l ++ pat.data ++ r) :
    hasSub (dockName pre n) pat = true := by
  rw [hasSub, dockName_data]
  have : pre.data ++ '_' :: natToChars n = l ++ pat.data ++ (r ++ natToChars n) := by
    have h1 : pre.data ++ '_' :: natToChars n = (pre.data ++ ['_']) ++ natToChars n := by
      simp
    rw [h1, hsplit]
    simp
  rw [this]
  exact hasSubL_append l pat.data (r ++ natToChars n)

/-- Python `pat in '<pre>_%d' % n` fails when some character of `pat` is neither in
`pre`, nor an underscore, nor a decimal digit. -/
theorem hasSub_dockName_false (pre : String) (n : Nat) (pat : String) (c : Char)
    (hc : c ∈ pat.data) (hpre : c ∉ pre.data) (hu : c ≠ '_') (hd : c.isDigit = false) :
    hasSub (dockName pre n) pat = false := by
  rw [hasSub, dockName_data]
  apply hasSubL_eq_false hc
  intro hmem
  rcases List.mem_append.mp hmem with h1 | h1
  · exact hpre h1
  · rcases List.mem_cons.mp h1 with h2 | h2
    · exact hu h2
    · rw [natToChars_isDigit n c h2] at hd
      exact Bool.true_eq_false.mp hd

/-- The index recovered by `int(key.split("_")[-1])` on a generated dock name. -/
def parseIndex (key : String) : Nat :=
  parseNat ((splitChar '_' key.data).getLastD [])

theorem parseIndex_dockName (pre : String) (n : Nat) (h : '_' ∉ pre.data) :
    parseIndex (dockName pre n) = n := by
  have hdig : '_' ∉ natToChars n := by
    intro hm
    have := natToChars_isDigit n '_' hm
    exact absurd this (by decide)
  rw [parseIndex, dockName_data, splitChar_append '_' pre.data (natToChars n) h,
      splitChar_of_not_mem '_' (natToChars n) hdig]
  simp only [List.getLastD_cons, List.getLastD_nil]
  exact parseNat_natToChars n

/-- Compact form of `hasSub_dockName_true` for use with `decide`. -/
theorem hasSubT (pre : String) (n : Nat) (pat : String) (l r : List Char)
    (h : pre.data ++ ['_'] = l ++ pat.data ++ r) :
    hasSub (dockName pre n) pat = true :=
  hasSub_dockName_true pre n pat l r h

/-- Compact form of `hasSub_dockName_false` for use with `decide`. -/
theorem hasSubF (pre : String) (n : Nat) (pat : String) (c : Char)
    (h : c ∈ pat.data ∧ c ∉ pre.data ∧ c ≠ '_' ∧ c.isDigit = false) :
    hasSub (dockName pre n) pat = false :=
  hasSub_dockName_false pre n pat c h.1 h.2.1 h.2.2.1 h.2.2.2

theorem dockName_ne (pre : String) (n : Nat) (s : String) (h : '_' ∉ s.data) :
    dockName pre n ≠ s := by
  intro he
  apply h
  rw [← he, dockName_data]
  exact List.mem_append.mpr (Or.inr (List.mem_cons_self _ _))

/-! ## Dock names created by `loadConfig` -/

def atmName (i : Nat) : String := dockName "atm" i
def wfsName (i : Nat) : String := dockName "wfs" i
def dmName (i : Nat) : String := dockName "dm" i
def tarName (i : Nat) : String := dockName "tar" i
def psfSEName (i : Nat) : String := dockName "psfSE" i
def psfLEName (i : Nat) : String := dockName "psfLE" i
def shName (i : Nat) : String := dockName "SH" i
def pyrFocalPlaneName (i : Nat) : String := dockName "pyrFocalPlane" i
def pyrHRName (i : Nat) : String := dockName "pyrHR" i
def pyrLRName (i : Nat) : String := dockName "pyrLR" i
def slpCompName (i : Nat) : String := dockName "slpComp" i
def slpGeomName (i : Nat) : String := dockName "slpGeom" i

/-! ## The `updateDisplay` dispatch (`widget_ao.py` lines 512-606) -/

/-- The frame-buffer getters of the external supervisor that `updateDisplay`
pulls from.  `getTarImage` takes the exposure kind (`"se"` or `"le"`). -/
structure DispSup (F : Type) where
  getAtmScreen : Nat → F
  getWfsPhase : Nat → F
  getDmShape : Nat → F
  getTarPhase : Nat → F
  getTarImage : Nat → String → F
  getWfsImage : Nat → F
  getPyrHRImage : Nat → F
  getPyrFocalPlane : Nat → F
  getSlopeGeom : Nat → F
  getSlope : F

/-- A frame-buffer fetch performed on the supervisor. -/
inductive FetchCall where
  | atmScreen (i : Nat)
  | wfsPhase (i : Nat)
  | dmShape (i : Nat)
  | tarPhase (i : Nat)
  | tarImage (i : Nat) (kind : String)
  | wfsImage (i : Nat)
  | pyrHRImage (i : Nat)
  | pyrFocalPlane (i : Nat)
  | slopeGeom (i : Nat)
  | slope
  deriving DecidableEq

/-- The widget-side state of one display dock: its name, its visibility, and
the image content last pushed into it. -/
structure DockState (F : Type) where
  key : String
  visible : Bool
  image : Option F
  deriving DecidableEq

/-- The `data` selection of `updateDisplay` for one dock key (lines 525-563):
a sequence of Python substring tests, each later match overriding the earlier
ones, with the PSF log-scale transform applied in between (line 543-547;
`ls` is the `actionPSF_Log_Scale` checkbox, `lt` models `np.log10` together
with its zero-filling).  Returns the selected data and the fetches performed. -/
def updateDockData {F : Type} (sup : DispSup F) (ls : Bool) (lt : F → F) (key : String) :
    Option F × List FetchCall :=
  let index := parseIndex key
  let d : Option F × List FetchCall := (none, [])
  let d := if hasSub key "atm" then (some (sup.getAtmScreen index), d.2 ++ [.atmScreen index]) else d
  let d := if hasSub key "wfs" then (some (sup.getWfsPhase index), d.2 ++ [.wfsPhase index]) else d
  let d := if hasSub key "dm" then (some (sup.getDmShape index), d.2 ++ [.dmShape index]) else d
  let d := if hasSub key "tar" then (some (sup.getTarPhase index), d.2 ++ [.tarPhase index]) else d
  let d := if hasSub key "psfLE" then (some (sup.getTarImage index "le"), d.2 ++ [.tarImage index "le"]) else d
  let d := if hasSub key "psfSE" then (some (sup.getTarImage index "se"), d.2 ++ [.tarImage index "se"]) else d
  let d := if hasSub key "psf" && ls then (d.1.map lt, d.2) else d
  let d := if hasSub key "SH" then (some (sup.getWfsImage index), d.2 ++ [.wfsImage index]) else d
  let d := if hasSub key "pyrLR" then (some (sup.getWfsImage index), d.2 ++ [.wfsImage index]) else d
  let d := if hasSub key "pyrHR" then (some (sup.getPyrHRImage index), d.2 ++ [.pyrHRImage index]) else d
  let d := if hasSub key "pyrFocalPlane" then (some (sup.getPyrFocalPlane index), d.2 ++ [.pyrFocalPlane index]) else d
  d

/-- The body of `updateDisplay`'s per-dock loop (lines 521-603): the Strehl
dock is skipped, invisible docks are left alone, docks whose `data` was
selected get it pushed into their image, and slope docks (`data` still `None`)
fetch `getSlopeGeom(index)` / `getSlope()` and redraw their canvas.  Returns
the new dock state and the supervisor fetches performed for this dock. -/
def updateDock {F : Type} (sup : DispSup F) (ls : Bool) (lt : F → F) (d : DockState F) :
    DockState F × List FetchCall :=
  if d.key = "Strehl" then (d, [])
  else if d.visible then
    let r := updateDockData sup ls lt d.key
    match r.1 with
    | some v => ({ d with image := some v }, r.2)
    | none =>
      if hasSub d.key "slp" then
        let index := parseIndex d.key
        let tr := r.2 ++ (if hasSub d.key "Geom" then [FetchCall.slopeGeom index] else [])
        let tr := tr ++ (if hasSub d.key "Comp" then [FetchCall.slope] else [])
        (d, tr)
      else (d, r.2)
  else (d, [])

/-- Method `updateDisplay` (lines 512-606): the early returns when the supervisor is
absent / has no `_sim` / is not initialized, the non-blocking lock acquire,
then the loop over all docks; the lock is released in the `finally`.  The
returned `Bool` is the lock state on return. -/
def updateDisplayRun {F : Type} (supIsNone hasSim simIsNone isInit : Bool)
    (lockHeld : Bool) (sup : DispSup F) (ls : Bool) (lt : F → F)
    (docks : List (DockState F)) : List (DockState F) × List FetchCall × Bool :=
  if supIsNone || !hasSim || simIsNone || !isInit then (docks, [], lockHeld)
  else if lockHeld then (docks, [], lockHeld)
  else
    let results := docks.map (updateDock sup ls lt)
    (results.map Prod.fst, results.flatMap Prod.snd, false)

section DispatchLemmas

variable {F : Type} (sup : DispSup F) (ls : Bool) (lt : F → F) (n : Nat)

theorem updateDockData_atm :
    updateDockData sup ls lt (atmName n) = (some (sup.getAtmScreen n), [FetchCall.atmScreen n]) := by
  rw [atmName, updateDockData,
      hasSubT "atm" n "atm" [] ['_'] (by decide),
      hasSubF "atm" n "wfs" 'w' (by decide),
      hasSubF "atm" n "dm" 'd' (by decide),
      hasSubF "atm" n "tar" 'r' (by decide),
      hasSubF "atm" n "psfLE" 'p' (by decide),
      hasSubF "atm" n "psfSE" 'p' (by decide),
      hasSubF "atm" n "psf" 'p' (by decide),
      hasSubF "atm" n "SH" 'S' (by decide),
      hasSubF "atm" n "pyrLR" 'y' (by decide),
      hasSubF "atm" n "pyrHR" 'y' (by decide),
      hasSubF "atm" n "pyrFocalPlane" 'y' (by decide),
      parseIndex_dockName "atm" n (by decide)]
  simp

theorem updateDockData_wfs :
    updateDockData sup ls lt (wfsName n) = (some (sup.getWfsPhase n), [FetchCall.wfsPhase n]) := by
  rw [wfsName, updateDockData,
      hasSubF "wfs" n "atm" 'a' (by decide),
      hasSubT "wfs" n "wfs" [] ['_'] (by decide),
      hasSubF "wfs" n "dm" 'd' (by decide),
      hasSubF "wfs" n "tar" 'a' (by decide),
      hasSubF "wfs" n "psfLE" 'p' (by decide),
      hasSubF "wfs" n "psfSE" 'p' (by decide),
      hasSubF "wfs" n "psf" 'p' (by decide),
      hasSubF "wfs" n "SH" 'S' (by decide),
      hasSubF "wfs" n "pyrLR" 'y' (by decide),
      hasSubF "wfs" n "pyrHR" 'y' (by decide),
      hasSubF "wfs" n "pyrFocalPlane" 'y' (by decide),
      parseIndex_dockName "wfs" n (by decide)]
  simp

theorem updateDockData_dm :
    updateDockData sup ls lt (dmName n) = (some (sup.getDmShape n), [FetchCall.dmShape n]) := by
  rw [dmName, updateDockData,
      hasSubF "dm" n "atm" 'a' (by decide),
      hasSubF "dm" n "wfs" 'w' (by decide),
      hasSubT "dm" n "dm" [] ['_'] (by decide),
      hasSubF "dm" n "tar" 't' (by decide),
      hasSubF "dm" n "psfLE" 'p' (by decide),
      hasSubF "dm" n "psfSE" 'p' (by decide),
      hasSubF "dm" n "psf" 'p' (by decide),
      hasSubF "dm" n "SH" 'S' (by decide),
      hasSubF "dm" n "pyrLR" 'y' (by decide),
      hasSubF "dm" n "pyrHR" 'y' (by decide),
      hasSubF "dm" n "pyrFocalPlane" 'y' (by decide),
      parseIndex_dockName "dm" n (by decide)]
  simp

theorem updateDockData_tar :
    updateDockData sup ls lt (tarName n) = (some (sup.getTarPhase n), [FetchCall.tarPhase n]) := by
  rw [tarName, updateDockData,
      hasSubF "tar" n "atm" 'm' (by decide),
      hasSubF "tar" n "wfs" 'w' (by decide),
      hasSubF "tar" n "dm" 'd' (by decide),
      hasSubT "tar" n "tar" [] ['_'] (by decide),
      hasSubF "tar" n "psfLE" 'p' (by decide),
      hasSubF "tar" n "psfSE" 'p' (by decide),
      hasSubF "tar" n "psf" 'p' (by decide),
      hasSubF "tar" n "SH" 'S' (by decide),
      hasSubF "tar" n "pyrLR" 'y' (by decide),
      hasSubF "tar" n "pyrHR" 'y' (by decide),
      hasSubF "tar" n "pyrFocalPlane" 'y' (by decide),
      parseIndex_dockName "tar" n (by decide)]
  simp

theorem updateDockData_psfSE :
    updateDockData sup ls lt (psfSEName n)
      = (some (if ls then lt (sup.getTarImage n "se") else sup.getTarImage n "se"),
         [FetchCall.tarImage n "se"]) := by
  rw [psfSEName, updateDockData,
      hasSubF "psfSE" n "atm" 'a' (by decide),
      hasSubF "psfSE" n "wfs" 'w' (by decide),
      hasSubF "psfSE" n "dm" 'd' (by decide),
      hasSubF "psfSE" n "tar" 'a' (by decide),
      hasSubF "psfSE" n "psfLE" 'L' (by decide),
      hasSubT "psfSE" n "psfSE" [] ['_'] (by decide),
      hasSubT "psfSE" n "psf" [] ['S', 'E', '_'] (by decide),
      hasSubF "psfSE" n "SH" 'H' (by decide),
      hasSubF "psfSE" n "pyrLR" 'y' (by decide),
      hasSubF "psfSE" n "pyrHR" 'y' (by decide),
      hasSubF "psfSE" n "pyrFocalPlane" 'y' (by decide),
      parseIndex_dockName "psfSE" n (by decide)]
  cases ls <;> simp

theorem updateDockData_psfLE :
    updateDockData sup ls lt (psfLEName n)
      = (some (if ls then lt (sup.getTarImage n "le") else sup.getTarImage n "le"),
         [FetchCall.tarImage n "le"]) := by
  rw [psfLEName, updateDockData,
      hasSubF "psfLE" n "atm" 'a' (by decide),
      hasSubF "psfLE" n "wfs" 'w' (by decide),
      hasSubF "psfLE" n "dm" 'd' (by decide),
      hasSubF "psfLE" n "tar" 'a' (by decide),
      hasSubT "psfLE" n "psfLE" [] ['_'] (by decide),
      hasSubF "psfLE" n "psfSE" 'S' (by decide),
      hasSubT "psfLE" n "psf" [] ['L', 'E', '_'] (by decide),
      hasSubF "psfLE" n "SH" 'S' (by decide),
      hasSubF "psfLE" n "pyrLR" 'y' (by decide),
      hasSubF "psfLE" n "pyrHR" 'y' (by decide),
      hasSubF "psfLE" n "pyrFocalPlane" 'y' (by decide),
      parseIndex_dockName "psfLE" n (by decide)]
  cases ls <;> simp

theorem updateDockData_sh :
    updateDockData sup ls lt (shName n) = (some (sup.getWfsImage n), [FetchCall.wfsImage n]) := by
  rw [shName, updateDockData,
      hasSubF "SH" n "atm" 'a' (by decide),
      hasSubF "SH" n "wfs" 'w' (by decide),
      hasSubF "SH" n "dm" 'd' (by decide),
      hasSubF "SH" n "tar" 'a' (by decide),
      hasSubF "SH" n "psfLE" 'p' (by decide),
      hasSubF "SH" n "psfSE" 'p' (by decide),
      hasSubF "SH" n "psf" 'p' (by decide),
      hasSubT "SH" n "SH" [] ['_'] (by decide),
      hasSubF "SH" n "pyrLR" 'y' (by decide),
      hasSubF "SH" n "pyrHR" 'y' (by decide),
      hasSubF "SH" n "pyrFocalPlane" 'y' (by decide),
      parseIndex_dockName "SH" n (by decide)]
  simp

theorem updateDockData_pyrLR :
    updateDockData sup ls lt (pyrLRName n) = (some (sup.getWfsImage n), [FetchCall.wfsImage n]) := by
  rw [pyrLRName, updateDockData,
      hasSubF "pyrLR" n "atm" 'a' (by decide),
      hasSubF "pyrLR" n "wfs" 'w' (by decide),
      hasSubF "pyrLR" n "dm" 'd' (by decide),
      hasSubF "pyrLR" n "tar" 'a' (by decide),
      hasSubF "pyrLR" n "psfLE" 's' (by decide),
      hasSubF "pyrLR" n "psfSE" 's' (by decide),
      hasSubF "pyrLR" n "psf" 's' (by decide),
      hasSubF "pyrLR" n "SH" 'S' (by decide),
      hasSubT "pyrLR" n "pyrLR" [] ['_'] (by decide),
      hasSubF "pyrLR" n "pyrHR" 'H' (by decide),
      hasSubF "pyrLR" n "pyrFocalPlane" 'F' (by decide),
      parseIndex_dockName "pyrLR" n (by decide)]
  simp

theorem updateDockData_pyrHR :
    updateDockData sup ls lt (pyrHRName n)
      = (some (sup.getPyrHRImage n), [FetchCall.pyrHRImage n]) := by
  rw [pyrHRName, updateDockData,
      hasSubF "pyrHR" n "atm" 'a' (by decide),
      hasSubF "pyrHR" n "wfs" 'w' (by decide),
      hasSubF "pyrHR" n "dm" 'd' (by decide),
      hasSubF "pyrHR" n "tar" 'a' (by decide),
      hasSubF "pyrHR" n "psfLE" 's' (by decide),
      hasSubF "pyrHR" n "psfSE" 's' (by decide),
      hasSubF "pyrHR" n "psf" 's' (by decide),
      hasSubF "pyrHR" n "SH" 'S' (by decide),
      hasSubF "pyrHR" n "pyrLR" 'L' (by decide),
      hasSubT "pyrHR" n "pyrHR" [] ['_'] (by decide),
      hasSubF "pyrHR" n "pyrFocalPlane" 'F' (by decide),
      parseIndex_dockName "pyrHR" n (by decide)]
  simp

theorem updateDockData_pyrFocalPlane :
    updateDockData sup ls lt (pyrFocalPlaneName n)
      = (some (sup.getPyrFocalPlane n), [FetchCall.pyrFocalPlane n]) := by
  rw [pyrFocalPlaneName, updateDockData,
      hasSubF "pyrFocalPlane" n "atm" 't' (by decide),
      hasSubF "pyrFocalPlane" n "wfs" 'w' (by decide),
      hasSubF "pyrFocalPlane" n "dm" 'd' (by decide),
      hasSubF "pyrFocalPlane" n "tar" 't' (by decide),
      hasSubF "pyrFocalPlane" n "psfLE" 's' (by decide),
      hasSubF "pyrFocalPlane" n "psfSE" 's' (by decide),
      hasSubF "pyrFocalPlane" n "psf" 's' (by decide),
      hasSubF "pyrFocalPlane" n "SH" 'S' (by decide),
      hasSubF "pyrFocalPlane" n "pyrLR" 'L' (by decide),
      hasSubF "pyrFocalPlane" n "pyrHR" 'H' (by decide),
      hasSubT "pyrFocalPlane" n "pyrFocalPlane" [] ['_'] (by decide),
      parseIndex_dockName "pyrFocalPlane" n (by decide)]
  simp

theorem updateDockData_slpGeom :
    updateDockData sup ls lt (slpGeomName n) = (none, []) := by
  rw [slpGeomName, updateDockData,
      hasSubF "slpGeom" n "atm" 'a' (by decide),
      hasSubF "slpGeom" n "wfs" 'w' (by decide),
      hasSubF "slpGeom" n "dm" 'd' (by decide),
      hasSubF "slpGeom" n "tar" 'a' (by decide),
      hasSubF "slpGeom" n "psfLE" 'f' (by decide),
      hasSubF "slpGeom" n "psfSE" 'f' (by decide),
      hasSubF "slpGeom" n "psf" 'f' (by decide),
      hasSubF "slpGeom" n "SH" 'S' (by decide),
      hasSubF "slpGeom" n "pyrLR" 'y' (by decide),
      hasSubF "slpGeom" n "pyrHR" 'y' (by decide),
      hasSubF "slpGeom" n "pyrFocalPlane" 'y' (by decide)]
  simp

theorem updateDockData_slpComp :
    updateDockData sup ls lt (slpCompName n) = (none, []) := by
  rw [slpCompName, updateDockData,
      hasSubF "slpComp" n "atm" 'a' (by decide),
      hasSubF "slpComp" n "wfs" 'w' (by decide),
      hasSubF "slpComp" n "dm" 'd' (by decide),
      hasSubF "slpComp" n "tar" 'a' (by decide),
      hasSubF "slpComp" n "psfLE" 'f' (by decide),
      hasSubF "slpComp" n "psfSE" 'f' (by decide),
      hasSubF "slpComp" n "psf" 'f' (by decide),
      hasSubF "slpComp" n "SH" 'S' (by decide),
      hasSubF "slpComp" n "pyrLR" 'y' (by decide),
      hasSubF "slpComp" n "pyrHR" 'y' (by decide),
      hasSubF "slpComp" n "pyrFocalPlane" 'y' (by decide)]
  simp

end DispatchLemmas

theorem updateDock_eval_data {F : Type} (sup : DispSup F) (ls : Bool) (lt : F → F)
    (k : String) (img : Option F) (v : F) (tr : List FetchCall)
    (hne : ¬(k = "Strehl")) (hdata : updateDockData sup ls lt k = (some v, tr)) :
    updateDock sup ls lt ⟨k, true, img⟩ = (⟨k, true, some v⟩, tr) := by
  rw [updateDock]
  simp only [hdata, if_neg hne]
  rfl

theorem updateDock_eval_slp {F : Type} (sup : DispSup F) (ls : Bool) (lt : F → F)
    (k : String) (img : Option F) (g c : Bool)
    (hne : ¬(k = "Strehl")) (hdata : updateDockData sup ls lt k = (none, []))
    (hslp : hasSub k "slp" = true) (hgeom : hasSub k "Geom" = g) (hcomp : hasSub k "Comp" = c) :
    updateDock sup ls lt ⟨k, true, img⟩
      = (⟨k, true, img⟩,
         (if g then [FetchCall.slopeGeom (parseIndex k)] else [])
           ++ (if c then [FetchCall.slope] else [])) := by
  rw [updateDock]
  simp only [hdata, if_neg hne, hslp, hgeom, hcomp]
  rfl

/-- C1: For every visible display dock (except the Strehl dock),
`updateDisplay` pulls the matching frame buffer from the supervisor and pushes
it into that dock's image: docks named `atm_i` get `getAtmScreen(i)`, `wfs_i`
get `getWfsPhase(i)`, `dm_i` get `getDmShape(i)`, `tar_i` get `getTarPhase(i)`,
`psfSE_i`/`psfLE_i` get `getTarImage(i,"se"/"le")` (log-scaled when the PSF
log-scale action is checked), `SH_i` and `pyrLR_i` get `getWfsImage(i)`,
`pyrHR_i` get `getPyrHRImage(i)`, `pyrFocalPlane_i` get `getPyrFocalPlane(i)`,
and the slope docks `slpGeom_i`/`slpComp_i` fetch `getSlopeGeom(i)`/`getSlope()`;
docks that are not visible are left unchanged and trigger no fetch, and the
whole display update is the per-dock update mapped over all docks. -/
theorem updateDisplay_fetch_table {F : Type} (sup : DispSup F) (ls : Bool) (lt : F → F)
    (d : DockState F) (n : Nat) :
    (d.visible = false → updateDock sup ls lt d = (d, []))
    ∧ (d.key = "Strehl" → updateDock sup ls lt d = (d, []))
    ∧ (d.visible = true → d.key = atmName n →
        updateDock sup ls lt d
          = ({ d with image := some (sup.getAtmScreen n) }, [FetchCall.atmScreen n]))
    ∧ (d.visible = true → d.key = wfsName n →
        updateDock sup ls lt d
          = ({ d with image := some (sup.getWfsPhase n) }, [FetchCall.wfsPhase n]))
    ∧ (d.visible = true → d.key = dmName n →
        updateDock sup ls lt d
          = ({ d with image := some (sup.getDmShape n) }, [FetchCall.dmShape n]))
    ∧ (d.visible = true → d.key = tarName n →
        updateDock sup ls lt d
          = ({ d with image := some (sup.getTarPhase n) }, [FetchCall.tarPhase n]))
    ∧ (d.visible = true → d.key = psfSEName n →
        updateDock sup ls lt d
          = ({ d with image := some (if ls then lt (sup.getTarImage n "se") else sup.getTarImage n "se") },
             [FetchCall.tarImage n "se"]))
    ∧ (d.visible = true → d.key = psfLEName n →
        updateDock sup ls lt d
          = ({ d with image := some (if ls then lt (sup.getTarImage n "le") else sup.getTarImage n "le") },
             [FetchCall.tarImage n "le"]))
    ∧ (d.visible = true → d.key = shName n →
        updateDock sup ls lt d
          = ({ d with image := some (sup.getWfsImage n) }, [FetchCall.wfsImage n]))
    ∧ (d.visible = true → d.key = pyrLRName n →
        updateDock sup ls lt d
          = ({ d with image := some (sup.getWfsImage n) }, [FetchCall.wfsImage n]))
    ∧ (d.visible = true → d.key = pyrHRName n →
        updateDock sup ls lt d
          = ({ d with image := some (sup.getPyrHRImage n) }, [FetchCall.pyrHRImage n]))
    ∧ (d.visible = true → d.key = pyrFocalPlaneName n →
        updateDock sup ls lt d
          = ({ d with image := some (sup.getPyrFocalPlane n) }, [FetchCall.pyrFocalPlane n]))
    ∧ (d.visible = true → d.key = slpGeomName n →
        updateDock sup ls lt d = (d, [FetchCall.slopeGeom n]))
    ∧ (d.visible = true → d.key = slpCompName n →
        updateDock sup ls lt d = (d, [FetchCall.slope]))
    ∧ (∀ docks : List (DockState F),
        updateDisplayRun false true false true false sup ls lt docks
          = (docks.map (fun x => (updateDock sup ls lt x).1),
             docks.flatMap (fun x => (updateDock sup ls lt x).2), false)) := by
  obtain ⟨k, vis, img⟩ := d
  refine ⟨?_, ?_, ?_, ?_, ?_, ?_, ?_, ?_, ?_, ?_, ?_, ?_, ?_, ?_, ?_⟩
  · intro hv
    dsimp at hv
    subst hv
    rw [updateDock]
    split
    · rfl
    · rfl
  · intro hk
    dsimp at hk
    subst hk
    rw [updateDock]
    simp
  · intro hv hk
    dsimp at hv hk
    subst hv hk
    exact updateDock_eval_data sup ls lt _ img _ _
      (by rw [atmName]; exact dockName_ne "atm" n "Strehl" (by decide))
      (updateDockData_atm sup ls lt n)
  · intro hv hk
    dsimp at hv hk
    subst hv hk
    exact updateDock_eval_data sup ls lt _ img _ _
      (by rw [wfsName]; exact dockName_ne "wfs" n "Strehl" (by decide))
      (updateDockData_wfs sup ls lt n)
  · intro hv hk
    dsimp at hv hk
    subst hv hk
    exact updateDock_eval_data sup ls lt _ img _ _
      (by rw [dmName]; exact dockName_ne "dm" n "Strehl" (by decide))
      (updateDockData_dm sup ls lt n)
  · intro hv hk
    dsimp at hv hk
    subst hv hk
    exact updateDock_eval_data sup ls lt _ img _ _
      (by rw [tarName]; exact dockName_ne "tar" n "Strehl" (by decide))
      (updateDockData_tar sup ls lt n)
  · intro hv hk
    dsimp at hv hk
    subst hv hk
    exact updateDock_eval_data sup ls lt _ img _ _
      (by rw [psfSEName]; exact dockName_ne "psfSE" n "Strehl" (by decide))
      (updateDockData_psfSE sup ls lt n)
  · intro hv hk
    dsimp at hv hk
    subst hv hk
    exact updateDock_eval_data sup ls lt _ img _ _
      (by rw [psfLEName]; exact dockName_ne "psfLE" n "Strehl" (by decide))
      (updateDockData_psfLE sup ls lt n)
  · intro hv hk
    dsimp at hv hk
    subst hv hk
    exact updateDock_eval_data sup ls lt _ img _ _
      (by rw [shName]; exact dockName_ne "SH" n "Strehl" (by decide))
      (updateDockData_sh sup ls lt n)
  · intro hv hk
    dsimp at hv hk
    subst hv hk
    exact updateDock_eval_data sup ls lt _ img _ _
      (by rw [pyrLRName]; exact dockName_ne "pyrLR" n "Strehl" (by decide))
      (updateDockData_pyrLR sup ls lt n)
  · intro hv hk
    dsimp at hv hk
    subst hv hk
    exact updateDock_eval_data sup ls lt _ img _ _
      (by rw [pyrHRName]; exact dockName_ne "pyrHR" n "Strehl" (by decide))
      (updateDockData_pyrHR sup ls lt n)
  · intro hv hk
    dsimp at hv hk
    subst hv hk
    exact updateDock_eval_data sup ls lt _ img _ _
      (by rw [pyrFocalPlaneName]; exact dockName_ne "pyrFocalPlane" n "Strehl" (by decide))
      (updateDockData_pyrFocalPlane sup ls lt n)
  · intro hv hk
    dsimp at hv hk
    subst hv hk
    have h := updateDock_eval_slp sup ls lt (slpGeomName n) img true false
      (by rw [slpGeomName]; exact dockName_ne "slpGeom" n "Strehl" (by decide))
      (updateDockData_slpGeom sup ls lt n)
      (by rw [slpGeomName]; exact hasSubT "slpGeom" n "slp" [] ['G', 'e', 'o', 'm', '_'] (by decide))
      (by rw [slpGeomName]; exact hasSubT "slpGeom" n "Geom" "slp".data ['_'] (by decide))
      (by rw [slpGeomName]; exact hasSubF "slpGeom" n "Comp" 'C' (by decide))
    rw [h, slpGeomName, parseIndex_dockName "slpGeom" n (by decide)]
    simp
  · intro hv hk
    dsimp at hv hk
    subst hv hk
    have h := updateDock_eval_slp sup ls lt (slpCompName n) img false true
      (by rw [slpCompName]; exact dockName_ne "slpComp" n "Strehl" (by decide))
      (updateDockData_slpComp sup ls lt n)
      (by rw [slpCompName]; exact hasSubT "slpComp" n "slp" [] ['C', 'o', 'm', 'p', '_'] (by decide))
      (by rw [slpCompName]; exact hasSubF "slpComp" n "Geom" 'G' (by decide))
      (by rw [slpCompName]; exact hasSubT "slpComp" n "Comp" "slp".data ['_'] (by decide))
    rw [h]
    simp
  · intro docks
    rw [updateDisplayRun]
    simp [List.flatMap_map]

/-- Concrete supervisor over `F := Nat` used by witnesses. -/
def natDispSup : DispSup Nat where
  getAtmScreen := fun i => 100 + i
  getWfsPhase := fun i => 200 + i
  getDmShape := fun i => 300 + i
  getTarPhase := fun i => 400 + i
  getTarImage := fun i _ => 500 + i
  getWfsImage := fun i => 600 + i
  getPyrHRImage := fun i => 700 + i
  getPyrFocalPlane := fun i => 800 + i
  getSlopeGeom := fun i => 900 + i
  getSlope := 42

theorem updateDisplay_fetch_table_witness :
    updateDock natDispSup false id ⟨atmName 0, true, none⟩
      = (⟨atmName 0, true, some (natDispSup.getAtmScreen 0)⟩, [FetchCall.atmScreen 0])
    ∧ updateDock natDispSup false id ⟨slpCompName 1, false, none⟩
      = (⟨slpCompName 1, false, none⟩, []) := by
  constructor
  · exact (updateDisplay_fetch_table natDispSup false id ⟨atmName 0, true, none⟩ 0).2.2.1 rfl rfl
  · exact (updateDisplay_fetch_table natDispSup false id ⟨slpCompName 1, false, none⟩ 1).1 rfl

/-! ## Name-equality facts used for counting docks -/

theorem sep_split_unique {sep : Char} {l₁ l₂ r₁ r₂ : List Char}
    (h : l₁ ++ sep :: r₁ = l₂ ++ sep :: r₂) (h₁ : sep ∉ l₁) (h₂ : sep ∉ l₂) :
    l₁ = l₂ ∧ r₁ = r₂ := by
  have hs := congrArg (splitChar sep) h
  rw [splitChar_append sep l₁ r₁ h₁, splitChar_append sep l₂ r₂ h₂] at hs
  have hl : l₁ = l₂ := (List.cons.injEq _ _ _ _).mp hs |>.1
  subst hl
  refine ⟨rfl, ?_⟩
  have := List.append_cancel_left h
  exact (List.cons.injEq _ _ _ _).mp this |>.2

theorem string_eq_of_data {s t : String} (h : s.data = t.data) : s = t := by
  cases s
  cases t
  exact congrArg String.mk h

theorem dockName_eq_iff {pre₁ pre₂ : String} {m n : Nat}
    (h₁ : '_' ∉ pre₁.data) (h₂ : '_' ∉ pre₂.data) :
    dockName pre₁ m = dockName pre₂ n ↔ pre₁ = pre₂ ∧ m = n := by
  constructor
  · intro he
    have hd := congrArg String.data he
    rw [dockName_data, dockName_data] at hd
    obtain ⟨hpre, hdig⟩ := sep_split_unique hd h₁ h₂
    exact ⟨string_eq_of_data hpre, natToChars_injective hdig⟩
  · rintro ⟨rfl, rfl⟩
    rfl

/-! ## `loadConfig` (lines 230-348): overlay removal and dock creation -/

/-- Values of `scons.WFSType` distinguished by `loadConfig`. -/
inductive WFSType where
  | SH
  | PYRHR
  | PYRLR
  deriving DecidableEq

/-- The parts of the supervisor configuration that the widget reads:
`len(config.p_atmos.alt)`, the `type` of each `config.p_wfss` entry,
`len(config.p_dms)` and `len(config.p_targets)`. -/
structure Config where
  natm : Nat
  wfsTypes : List WFSType
  ndm : Nat
  ntar : Nat

/-- The docks created for WFS number `i` (lines 287-305): the `wfs_i` phase
dock, the two slope docks, then the image docks according to the WFS type. -/
def wfsDocks (i : Nat) (t : WFSType) : List String :=
  [wfsName i, slpCompName i, slpGeomName i]
    ++ match t with
       | .SH => [shName i]
       | .PYRHR | .PYRLR => [pyrFocalPlaneName i, pyrHRName i, pyrLRName i]

/-- The `for wfs in range(self.nwfs)` loop of lines 287-307, starting at `s`. -/
def wfsSegment : Nat → List WFSType → List String
  | _, [] => []
  | s, t :: rest => wfsDocks s t ++ wfsSegment (s + 1) rest

/-- All dock names created by `loadConfig`, in creation order (lines 281-325). -/
def loadConfigDocks (cfg : Config) : List String :=
  (List.range cfg.natm).map (fun i => atmName i)
    ++ wfsSegment 0 cfg.wfsTypes
    ++ (List.range cfg.ndm).map (fun i => dmName i)
    ++ (List.range cfg.ntar).map (fun i => tarName i)
    ++ (List.range cfg.ntar).map (fun i => psfSEName i)
    ++ (List.range cfg.ntar).map (fun i => psfLEName i)
    ++ ["Strehl"]

/-- One overlay-removal pass over a dictionary of plot items:
`for key, pgpl in dict.items(): self.viewboxes[key].removeItem(pgpl)`
(lines 239-252).  Plot items are identified by `Nat` tags. -/
def removeOverlay (vbs : String → List Nat) (dict : List (String × Nat)) :
    String → List Nat :=
  dict.foldl (fun v p => fun k => if k = p.1 then (v k).erase p.2 else v k) vbs

/-- The five overlay dictionaries and the viewbox contents. -/
structure OverlayState where
  SRcircles : List (String × Nat)
  SRCrossX : List (String × Nat)
  SRCrossY : List (String × Nat)
  PyrEdgeX : List (String × Nat)
  PyrEdgeY : List (String × Nat)
  viewboxes : String → List Nat

/-- The overlay lifecycle of `loadConfig`: the five removal loops
(lines 239-252) followed by the five `.clear()` calls (lines 275-279). -/
def loadConfigOverlays (st : OverlayState) : OverlayState :=
  let v := removeOverlay st.viewboxes st.SRcircles
  let v := removeOverlay v st.SRCrossX
  let v := removeOverlay v st.SRCrossY
  let v := removeOverlay v st.PyrEdgeX
  let v := removeOverlay v st.PyrEdgeY
  { SRcircles := [], SRCrossX := [], SRCrossY := [], PyrEdgeX := [], PyrEdgeY := [],
    viewboxes := v }

/-- All overlay entries, in the order the removal loops process them. -/
def allOverlays (st : OverlayState) : List (String × Nat) :=
  st.SRcircles ++ st.SRCrossX ++ st.SRCrossY ++ st.PyrEdgeX ++ st.PyrEdgeY

/-- The name prefixes of the docks created for one WFS of each type. -/
def wfsPres : WFSType → List String
  | .SH => ["wfs", "slpComp", "slpGeom", "SH"]
  | .PYRHR | .PYRLR => ["wfs", "slpComp", "slpGeom", "pyrFocalPlane", "pyrHR", "pyrLR"]

theorem wfsDocks_eq (i : Nat) (t : WFSType) :
    wfsDocks i t = (wfsPres t).map (fun p => dockName p i) := by
  cases t <;> rfl

theorem count_ite_dockName {pre q : String} (hp : '_' ∉ pre.data) (hq : '_' ∉ q.data)
    {i s : Nat} :
    (if dockName q s = dockName pre i then (1 : Nat) else 0)
      = if pre = q ∧ i = s then 1 else 0 := by
  by_cases h : dockName q s = dockName pre i
  · obtain ⟨h1, h2⟩ := (dockName_eq_iff hq hp).mp h
    rw [if_pos h, if_pos ⟨h1.symm, h2.symm⟩]
  · rw [if_neg h, if_neg (fun hc => h ((dockName_eq_iff hq hp).mpr ⟨hc.1.symm, hc.2.symm⟩))]

theorem count_dockName_map_pres (pre : String) (hp : '_' ∉ pre.data) (i s : Nat) :
    ∀ pres : List String, pres.Nodup → (∀ p ∈ pres, '_' ∉ p.data) →
    ((pres.map (fun p => dockName p s)).count (dockName pre i))
      = if pre ∈ pres ∧ i = s then 1 else 0 := by
  intro pres
  induction pres with
  | nil => simp
  | cons q rest ih =>
    intro hnd hfree
    have hq : '_' ∉ q.data := hfree q (List.mem_cons_self _ _)
    have hAB : pre = q → pre ∉ rest := fun he => he ▸ (List.nodup_cons.mp hnd).1
    rw [List.map_cons, List.count_cons,
        ih (List.nodup_cons.mp hnd).2 (fun p hp' => hfree p (List.mem_cons_of_mem _ hp'))]
    simp only [beq_iff_eq, count_ite_dockName hp hq, List.mem_cons]
    by_cases hC : i = s
    · subst hC
      simp only [and_true]
      by_cases hA : pre = q
      · rw [if_pos hA, if_neg (hAB hA), if_pos (Or.inl hA)]
      · by_cases hB : pre ∈ rest
        · rw [if_pos hB, if_neg hA, if_pos (Or.inr hB)]
        · rw [if_neg hB, if_neg hA, if_neg (by tauto)]
    · simp [hC]

theorem count_dockName_map_range (pre pre' : String)
    (hp : '_' ∉ pre.data) (hp' : '_' ∉ pre'.data) (i k : Nat) :
    (((List.range k).map (fun j => dockName pre j)).count (dockName pre' i))
      = if pre' = pre ∧ i < k then 1 else 0 := by
  induction k with
  | zero => simp
  | succ k ih =>
    rw [List.range_succ, List.map_append, List.count_append, ih]
    simp only [List.map_cons, List.map_nil, List.count_cons, List.count_nil, beq_iff_eq,
               count_ite_dockName hp' hp]
    by_cases hA : pre' = pre
    · subst hA
      simp only [true_and]
      split_ifs <;> omega
    · simp [hA]

theorem count_wfsSegment (pre : String) (hp : '_' ∉ pre.data) (i : Nat) :
    ∀ (ts : List WFSType) (s : Nat),
    ((wfsSegment s ts).count (dockName pre i))
      = if s ≤ i then
          (match ts[i - s]? with
           | some t => if pre ∈ wfsPres t then 1 else 0
           | none => 0)
        else 0 := by
  intro ts
  induction ts with
  | nil => intro s; simp [wfsSegment]
  | cons t rest ih =>
    intro s
    rw [wfsSegment, List.count_append, wfsDocks_eq,
        count_dockName_map_pres pre hp i s (wfsPres t) (by cases t <;> decide)
          (by cases t <;> decide),
        ih (s + 1)]
    rcases Nat.lt_trichotomy i s with hlt | heq | hgt
    · rw [if_neg (by rintro ⟨_, rfl⟩; omega), if_neg (by omega), if_neg (by omega)]
    · subst heq
      rw [if_neg (show ¬ i + 1 ≤ i by omega), if_pos (le_refl i)]
      have h0 : i - i = 0 := by omega
      rw [h0]
      simp only [List.getElem?_cons_zero, and_true, add_zero]
    · rw [if_neg (by rintro ⟨_, rfl⟩; omega), if_pos (by omega), if_pos (by omega)]
      have h1 : i - s = (i - (s + 1)) + 1 := by omega
      rw [h1, List.getElem?_cons_succ, Nat.zero_add]

theorem strehl_count_map_range (pre : String) (k : Nat) :
    (((List.range k).map (fun j => dockName pre j)).count "Strehl") = 0 := by
  rw [List.count_eq_zero]
  intro hm
  obtain ⟨j, _, he⟩ := List.mem_map.mp hm
  exact dockName_ne pre j "Strehl" (by decide) he

theorem strehl_count_wfsSegment : ∀ (ts : List WFSType) (s : Nat),
    ((wfsSegment s ts).count "Strehl") = 0 := by
  intro ts
  induction ts with
  | nil => intro s; simp [wfsSegment]
  | cons t rest ih =>
    intro s
    rw [wfsSegment, List.count_append, ih (s + 1), wfsDocks_eq]
    rw [List.count_eq_zero.mpr]
    intro hm
    obtain ⟨p, _, he⟩ := List.mem_map.mp hm
    exact dockName_ne p s "Strehl" (by decide) he

theorem count_dockName_strehl (pre : String) (i : Nat) :
    (["Strehl"].count (dockName pre i)) = 0 := by
  rw [List.count_eq_zero]
  intro hm
  rw [List.mem_singleton] at hm
  exact dockName_ne pre i "Strehl" (by decide) hm

theorem removeOverlay_append (v : String → List Nat) (d₁ d₂ : List (String × Nat)) :
    removeOverlay v (d₁ ++ d₂) = removeOverlay (removeOverlay v d₁) d₂ :=
  List.foldl_append _ _ _ _

theorem not_mem_removeOverlay (dict : List (String × Nat)) :
    ∀ (v : String → List Nat) (k : String) (a : Nat),
    a ∉ v k → a ∉ removeOverlay v dict k := by
  induction dict with
  | nil => intro v k a h; exact h
  | cons p rest ih =>
    intro v k a h
    have hstep : removeOverlay v (p :: rest)
        = removeOverlay (fun k' => if k' = p.1 then (v k').erase p.2 else v k') rest := rfl
    rw [hstep]
    apply ih
    dsimp only
    by_cases hk : k = p.1
    · rw [if_pos hk]
      intro hm
      exact h (((v k).erase_sublist p.2).subset hm)
    · rw [if_neg hk]
      exact h

theorem removeOverlay_removes : ∀ (dict : List (String × Nat)) (v : String → List Nat),
    (dict.map Prod.snd).Nodup →
    (∀ p ∈ dict, ((v p.1).count p.2) = 1) →
    ∀ p ∈ dict, p.2 ∉ removeOverlay v dict p.1 := by
  intro dict
  induction dict with
  | nil => intro v _ _ p hp; simp at hp
  | cons q rest ih =>
    intro v hnd hcount p hp
    have hstep : removeOverlay v (q :: rest)
        = removeOverlay (fun k' => if k' = q.1 then (v k').erase q.2 else v k') rest := rfl
    rw [hstep]
    have hnd2 : (q.2 :: rest.map Prod.snd).Nodup := by
      rw [List.map_cons] at hnd
      exact hnd
    have hnd' := List.nodup_cons.mp hnd2
    rcases List.mem_cons.mp hp with heq | hmem
    · subst heq
      apply not_mem_removeOverlay
      dsimp only
      rw [if_pos rfl]
      have h1 : ((v p.1).count p.2) = 1 := hcount p (List.mem_cons_self _ _)
      have h2 : (((v p.1).erase p.2).count p.2) = 0 := by
        rw [List.count_erase_self, h1]
      exact List.count_eq_zero.mp h2
    · apply ih _ hnd'.2 _ p hmem
      intro r hr
      dsimp only
      by_cases hk : r.1 = q.1
      · rw [if_pos hk]
        have hne : r.2 ≠ q.2 := by
          intro he
          apply hnd'.1
          rw [← he]
          exact List.mem_map.mpr ⟨r, hr, rfl⟩
        rw [List.count_erase_of_ne hne]
        exact hcount r (List.mem_cons_of_mem _ hr)
      · rw [if_neg hk]
        exact hcount r (List.mem_cons_of_mem _ hr)

theorem loadConfigOverlays_viewboxes (st : OverlayState) :
    (loadConfigOverlays st).viewboxes = removeOverlay st.viewboxes (allOverlays st) := by
  rw [loadConfigOverlays, allOverlays]
  simp only [removeOverlay_append]

/-- Sum of the per-segment counts of a generated dock name in `loadConfigDocks`. -/
theorem count_loadConfigDocks (cfg : Config) (pre : String) (hp : '_' ∉ pre.data) (i : Nat) :
    ((loadConfigDocks cfg).count (dockName pre i))
      = (if pre = "atm" ∧ i < cfg.natm then 1 else 0)
        + (match cfg.wfsTypes[i]? with
           | some t => if pre ∈ wfsPres t then 1 else 0
           | none => 0)
        + (if pre = "dm" ∧ i < cfg.ndm then 1 else 0)
        + (if pre = "tar" ∧ i < cfg.ntar then 1 else 0)
        + (if pre = "psfSE" ∧ i < cfg.ntar then 1 else 0)
        + (if pre = "psfLE" ∧ i < cfg.ntar then 1 else 0) := by
  rw [loadConfigDocks]
  simp only [List.count_append, atmName, dmName, tarName, psfSEName, psfLEName]
  rw [count_dockName_map_range "atm" pre (by decide) hp,
      count_wfsSegment pre hp i cfg.wfsTypes 0,
      count_dockName_map_range "dm" pre (by decide) hp,
      count_dockName_map_range "tar" pre (by decide) hp,
      count_dockName_map_range "psfSE" pre (by decide) hp,
      count_dockName_map_range "psfLE" pre (by decide) hp,
      count_dockName_strehl pre i,
      if_pos (Nat.zero_le i)]
  have h0 : i - 0 = i := by omega
  rw [h0]
  omega

/-- C4: `loadConfig` manages the dock/plot lifecycle: every previously
stored overlay item (`SRcircles`, `SRCrossX`, `SRCrossY`, `PyrEdgeX`,
`PyrEdgeY`) is removed from its viewbox and all five dictionaries are cleared;
then exactly one phase dock is created per atmosphere layer (`atm_i`), per WFS
(`wfs_i`), per DM (`dm_i`) and per target (`tar_i`), two slope docks per WFS
(`slpComp_i`, `slpGeom_i`), image docks per WFS according to its type (`SH_i`
for Shack-Hartmann; `pyrFocalPlane_i`, `pyrHR_i`, `pyrLR_i` for pyramid
types), one `psfSE_i` and one `psfLE_i` dock per target, and one Strehl dock. -/
theorem loadConfig_lifecycle (cfg : Config) (st : OverlayState) (i : Nat)
    (hnd : ((allOverlays st).map Prod.snd).Nodup)
    (hcount : ∀ p ∈ allOverlays st, ((st.viewboxes p.1).count p.2) = 1) :
    ((loadConfigOverlays st).SRcircles = [] ∧ (loadConfigOverlays st).SRCrossX = []
        ∧ (loadConfigOverlays st).SRCrossY = [] ∧ (loadConfigOverlays st).PyrEdgeX = []
        ∧ (loadConfigOverlays st).PyrEdgeY = [])
    ∧ (∀ p ∈ allOverlays st, p.2 ∉ (loadConfigOverlays st).viewboxes p.1)
    ∧ ((loadConfigDocks cfg).count (atmName i) = if i < cfg.natm then 1 else 0)
    ∧ ((loadConfigDocks cfg).count (wfsName i) = if i < cfg.wfsTypes.length then 1 else 0)
    ∧ ((loadConfigDocks cfg).count (slpCompName i) = if i < cfg.wfsTypes.length then 1 else 0)
    ∧ ((loadConfigDocks cfg).count (slpGeomName i) = if i < cfg.wfsTypes.length then 1 else 0)
    ∧ ((loadConfigDocks cfg).count (shName i)
        = if cfg.wfsTypes[i]? = some WFSType.SH then 1 else 0)
    ∧ ((loadConfigDocks cfg).count (pyrFocalPlaneName i)
        = if cfg.wfsTypes[i]? = some WFSType.PYRHR ∨ cfg.wfsTypes[i]? = some WFSType.PYRLR
          then 1 else 0)
    ∧ ((loadConfigDocks cfg).count (pyrHRName i)
        = if cfg.wfsTypes[i]? = some WFSType.PYRHR ∨ cfg.wfsTypes[i]? = some WFSType.PYRLR
          then 1 else 0)
    ∧ ((loadConfigDocks cfg).count (pyrLRName i)
        = if cfg.wfsTypes[i]? = some WFSType.PYRHR ∨ cfg.wfsTypes[i]? = some WFSType.PYRLR
          then 1 else 0)
    ∧ ((loadConfigDocks cfg).count (dmName i) = if i < cfg.ndm then 1 else 0)
    ∧ ((loadConfigDocks cfg).count (tarName i) = if i < cfg.ntar then 1 else 0)
    ∧ ((loadConfigDocks cfg).count (psfSEName i) = if i < cfg.ntar then 1 else 0)
    ∧ ((loadConfigDocks cfg).count (psfLEName i) = if i < cfg.ntar then 1 else 0)
    ∧ ((loadConfigDocks cfg).count "Strehl" = 1) := by
  refine ⟨⟨rfl, rfl, rfl, rfl, rfl⟩, ?_, ?_, ?_, ?_, ?_, ?_, ?_, ?_, ?_, ?_, ?_, ?_, ?_, ?_⟩
  · rw [loadConfigOverlays_viewboxes]
    exact removeOverlay_removes (allOverlays st) st.viewboxes hnd hcount
  · rw [show atmName i = dockName "atm" i from rfl, count_loadConfigDocks cfg "atm" (by decide) i]
    rcases hw : cfg.wfsTypes[i]? with _ | t
    · simp
    · cases t <;> simp [wfsPres]
  · rw [show wfsName i = dockName "wfs" i from rfl, count_loadConfigDocks cfg "wfs" (by decide) i]
    rcases hw : cfg.wfsTypes[i]? with _ | t
    · have hlen : cfg.wfsTypes.length ≤ i := List.getElem?_eq_none_iff.mp hw
      simp [Nat.not_lt.mpr hlen]
    · have hlen : i < cfg.wfsTypes.length := (List.getElem?_eq_some_iff.mp hw).1
      cases t <;> simp [wfsPres, hlen]
  · rw [show slpCompName i = dockName "slpComp" i from rfl,
        count_loadConfigDocks cfg "slpComp" (by decide) i]
    rcases hw : cfg.wfsTypes[i]? with _ | t
    · have hlen : cfg.wfsTypes.length ≤ i := List.getElem?_eq_none_iff.mp hw
      simp [Nat.not_lt.mpr hlen]
    · have hlen : i < cfg.wfsTypes.length := (List.getElem?_eq_some_iff.mp hw).1
      cases t <;> simp [wfsPres, hlen]
  · rw [show slpGeomName i = dockName "slpGeom" i from rfl,
        count_loadConfigDocks cfg "slpGeom" (by decide) i]
    rcases hw : cfg.wfsTypes[i]? with _ | t
    · have hlen : cfg.wfsTypes.length ≤ i := List.getElem?_eq_none_iff.mp hw
      simp [Nat.not_lt.mpr hlen]
    · have hlen : i < cfg.wfsTypes.length := (List.getElem?_eq_some_iff.mp hw).1
      cases t <;> simp [wfsPres, hlen]
  · rw [show shName i = dockName "SH" i from rfl, count_loadConfigDocks cfg "SH" (by decide) i]
    rcases hw : cfg.wfsTypes[i]? with _ | t
    · simp
    · cases t <;> simp [wfsPres]
  · rw [show pyrFocalPlaneName i = dockName "pyrFocalPlane" i from rfl,
        count_loadConfigDocks cfg "pyrFocalPlane" (by decide) i]
    rcases hw : cfg.wfsTypes[i]? with _ | t
    · simp
    · cases t <;> simp [wfsPres]
  · rw [show pyrHRName i = dockName "pyrHR" i from rfl,
        count_loadConfigDocks cfg "pyrHR" (by decide) i]
    rcases hw : cfg.wfsTypes[i]? with _ | t
    · simp
    · cases t <;> simp [wfsPres]
  · rw [show pyrLRName i = dockName "pyrLR" i from rfl,
        count_loadConfigDocks cfg "pyrLR" (by decide) i]
    rcases hw : cfg.wfsTypes[i]? with _ | t
    · simp
    · cases t <;> simp [wfsPres]
  · rw [show dmName i = dockName "dm" i from rfl, count_loadConfigDocks cfg "dm" (by decide) i]
    rcases hw : cfg.wfsTypes[i]? with _ | t
    · simp
    · cases t <;> simp [wfsPres]
  · rw [show tarName i = dockName "tar" i from rfl, count_loadConfigDocks cfg "tar" (by decide) i]
    rcases hw : cfg.wfsTypes[i]? with _ | t
    · simp
    · cases t <;> simp [wfsPres]
  · rw [show psfSEName i = dockName "psfSE" i from rfl,
        count_loadConfigDocks cfg "psfSE" (by decide) i]
    rcases hw : cfg.wfsTypes[i]? with _ | t
    · simp
    · cases t <;> simp [wfsPres]
  · rw [show psfLEName i = dockName "psfLE" i from rfl,
        count_loadConfigDocks cfg "psfLE" (by decide) i]
    rcases hw : cfg.wfsTypes[i]? with _ | t
    · simp
    · cases t <;> simp [wfsPres]
  · rw [loadConfigDocks]
    simp only [List.count_append, atmName, dmName, tarName, psfSEName, psfLEName]
    rw [strehl_count_map_range "atm" cfg.natm, strehl_count_wfsSegment cfg.wfsTypes 0,
        strehl_count_map_range "dm" cfg.ndm, strehl_count_map_range "tar" cfg.ntar,
        strehl_count_map_range "psfSE" cfg.ntar, strehl_count_map_range "psfLE" cfg.ntar]
    simp

/-- Concrete configuration used by witnesses: one atmosphere layer, one SH WFS
and one pyramid WFS, one DM, one target. -/
def wConfig : Config := { natm := 1, wfsTypes := [WFSType.SH, WFSType.PYRHR], ndm := 1, ntar := 1 }

/-- Concrete overlay state used by witnesses. -/
def wOverlay : OverlayState :=
  { SRcircles := [("atm_0", 7)], SRCrossX := [("psfSE_0", 8)], SRCrossY := [],
    PyrEdgeX := [], PyrEdgeY := [],
    viewboxes := fun k => if k = "atm_0" then [7] else if k = "psfSE_0" then [8] else [] }

theorem loadConfig_lifecycle_witness :
    (loadConfigOverlays wOverlay).SRcircles = []
    ∧ (∀ p ∈ allOverlays wOverlay, p.2 ∉ (loadConfigOverlays wOverlay).viewboxes p.1)
    ∧ ((loadConfigDocks wConfig).count (atmName 0) = if 0 < wConfig.natm then 1 else 0)
    ∧ ((loadConfigDocks wConfig).count (shName 0)
        = if wConfig.wfsTypes[0]? = some WFSType.SH then 1 else 0)
    ∧ ((loadConfigDocks wConfig).count "Strehl" = 1) := by
  have h := loadConfig_lifecycle wConfig wOverlay 0 (by decide) (by decide)
  obtain ⟨hd, hrm, h1, _, _, _, h5, _, _, _, _, _, _, _, h13⟩ := h
  exact ⟨hd.1, hrm, h1, h5, h13⟩

/-! ## Widget loop state (`__init__`, `aoLoopClicked`, `aoLoopOpen`, `resetSR`,
`clearSR`, `updateSRDisplay`, `loopOnce`, `run`) -/

/-- Python `collections.deque(maxlen=m)`: appending to a full deque drops the
oldest element. -/
structure BDeque (α : Type) where
  maxlen : Nat
  data : List α
  deriving DecidableEq

/-- Python `deque.append(x)`. -/
def BDeque.push {α : Type} (d : BDeque α) (x : α) : BDeque α :=
  let l := d.data ++ [x]
  { maxlen := d.maxlen, data := l.drop (l.length - d.maxlen) }

/-- Line 98: `self.rollingWindow = 100`. -/
def rollingWindow : Nat := 100

/-- Calls made on the supervisor / simulation objects by the loop and button
handlers. -/
inductive SupCall where
  | singleNext
  | compImage (t : Nat)
  | getStrehl (t : Nat)
  | getFrameCounter
  | closeLoop
  | openLoop
  | resetStrehl (t : Nat)
  deriving DecidableEq

/-- The supervisor data read by `loopOnce`: the number of targets
(`config.p_targets` / `_sim.tar.d_targets`), the pair returned by
`getStrehl(t)` (`SR[0]` = short exposure, `SR[1]` = long exposure), and the
frame counter. -/
structure Supervisor where
  ntargets : Nat
  strehl : Nat → ℚ × ℚ
  frameCounter : Nat

/-- The mutable widget state touched by the loop and the button handlers.
Checkbox and spinbox values (`wao_forever`, `wao_dispSR_tar`, `wao_allTarget`,
`wao_resetSR_tarNum`, `wao_frameRate`, `wao_nbiters`) are carried as fields. -/
structure WState where
  stop : Bool
  refreshTime : ℚ
  nbiter : Int
  SRLE : BDeque ℚ
  SRSE : BDeque ℚ
  numiter : BDeque Nat
  strehlSEText : String
  strehlLEText : String
  currentFreq : ℚ
  lockHeld : Bool
  runChecked : Bool
  forever : Bool
  dispStats : Bool
  dispSRTar : Nat
  allTarget : Bool
  resetSRTarNum : Nat
  openLoopText : String
  frameRate : ℚ
  nbitersBox : Int
  deriving DecidableEq

/-- The widget state after `__init__` (lines 92-188): `stop = False`, the
nbiters box set to 1000 and read back into `nbiter`, `refreshTime = 0`, the
three SR history deques fresh with `maxlen = rollingWindow`,
`dispStatsInTerminal = False`, run button unchecked.  GUI values that the
code does not set (frame rate, checkbox states, initial text) are
parameters. -/
def initState (fr : ℚ) (dtar : Nat) (allT fv : Bool) (rn : Nat) (olt : String) : WState :=
  { stop := false, refreshTime := 0, nbiter := 1000,
    SRLE := { maxlen := rollingWindow, data := [] },
    SRSE := { maxlen := rollingWindow, data := [] },
    numiter := { maxlen := rollingWindow, data := [] },
    strehlSEText := "", strehlLEText := "", currentFreq := 0,
    lockHeld := false, runChecked := false, forever := fv, dispStats := false,
    dispSRTar := dtar, allTarget := allT, resetSRTarNum := rn,
    openLoopText := olt, frameRate := fr, nbitersBox := 1000 }

/-- Method `updateSRDisplay` (lines 505-510): appends one point to each history deque
and redraws the two SR curves from them. -/
def updateSRDisplay (st : WState) (srle srse : ℚ) (ni : Nat) : WState :=
  { st with SRLE := st.SRLE.push srle, SRSE := st.SRSE.push srse,
            numiter := st.numiter.push ni }

/-- Method `clearSR` (lines 500-503): replaces the three deques with fresh bounded
deques of maximum length 20. -/
def clearSR (st : WState) : WState :=
  { st with SRLE := { maxlen := 20, data := [] }, SRSE := { maxlen := 20, data := [] },
            numiter := { maxlen := 20, data := [] } }

/-- Handler `aoLoopClicked` (lines 350-362): on press, clear the stop flag, record the
current time as `refreshTime`, read the nbiters box into `nbiter` and call
`run()` (the returned flag); on release, set the stop flag. -/
def aoLoopClicked (st : WState) (pressed : Bool) (now : ℚ) : WState × Bool :=
  if pressed then
    ({ st with stop := false, refreshTime := now, nbiter := st.nbitersBox }, true)
  else ({ st with stop := true }, false)

/-- Handler `aoLoopOpen` (lines 364-370): the open-loop toggle button. -/
def aoLoopOpen (st : WState) (pressed : Bool) : WState × List SupCall :=
  if pressed then ({ st with openLoopText := "Open Loop" }, [SupCall.closeLoop])
  else ({ st with openLoopText := "Close Loop" }, [SupCall.openLoop])

/-- Handler `resetSR` (lines 216-223): reset the Strehl computation on every target or
on the spinbox-selected one. -/
def resetSR (st : WState) (cfg : Config) : List SupCall :=
  if st.allTarget then (List.range cfg.ntar).map (fun t => SupCall.resetStrehl t)
  else [SupCall.resetStrehl st.resetSRTarNum]

/-- Method `run` (lines 663-670), after the `WidgetBase.run` call (implemented in the
base class, outside this file): the iteration countdown and the self-stop. -/
def runStep (st : WState) : WState :=
  let st := if st.forever then st else { st with nbiter := st.nbiter - 1 }
  if st.nbiter ≤ 0 then { st with stop := true, runChecked := false } else st

/-- Sample widget state used by witnesses. -/
def wState : WState := initState 10 0 false false 0 "Close Loop"

/-- Sample supervisor used by witnesses. -/
def wSup : Supervisor :=
  { ntargets := 2, strehl := fun t => (1 / (t + 2 : ℚ), 3 / 4), frameCounter := 5 }

/-- C5: clicking the run button while pressed clears the stop flag,
records the current time as `refreshTime`, reads the iteration count from the
GUI nbiters box into `nbiter`, and starts the loop by calling `run`; clicking
it while unpressed sets the stop flag. -/
theorem aoLoopClicked_wiring (st : WState) (now : ℚ) :
    aoLoopClicked st true now
      = ({ st with stop := false, refreshTime := now, nbiter := st.nbitersBox }, true)
    ∧ aoLoopClicked st false now = ({ st with stop := true }, false) :=
  ⟨rfl, rfl⟩

/-- C6: when the open-loop toggle is pressed the widget calls
`supervisor.closeLoop()` and sets the button text to "Open Loop"; when it is
released it calls `supervisor.openLoop()` and sets the text to "Close Loop". -/
theorem aoLoopOpen_wiring (st : WState) :
    aoLoopOpen st true = ({ st with openLoopText := "Open Loop" }, [SupCall.closeLoop])
    ∧ aoLoopOpen st false = ({ st with openLoopText := "Close Loop" }, [SupCall.openLoop]) :=
  ⟨rfl, rfl⟩

theorem count_resetStrehl_range (i k : Nat) :
    (((List.range k).map (fun t => SupCall.resetStrehl t)).count (SupCall.resetStrehl i))
      = if i < k then 1 else 0 := by
  induction k with
  | zero => simp
  | succ k ih =>
    rw [List.range_succ, List.map_append, List.count_append, ih]
    simp only [List.map_cons, List.map_nil, List.count_cons, List.count_nil, beq_iff_eq,
               SupCall.resetStrehl.injEq]
    split_ifs <;> omega

/-- C7: when the "all targets" checkbox is checked, `resetSR` calls
`supervisor.resetStrehl(t)` once for every target index `t` below the number
of configured targets; otherwise it calls `resetStrehl` exactly once, on the
target selected in the GUI spinbox. -/
theorem resetSR_wiring (st : WState) (cfg : Config) :
    (st.allTarget = true →
        resetSR st cfg = (List.range cfg.ntar).map (fun t => SupCall.resetStrehl t)
        ∧ (∀ t, (resetSR st cfg).count (SupCall.resetStrehl t) = if t < cfg.ntar then 1 else 0))
    ∧ (st.allTarget = false → resetSR st cfg = [SupCall.resetStrehl st.resetSRTarNum]) := by
  constructor
  · intro h
    rw [resetSR, if_pos h]
    exact ⟨rfl, fun t => count_resetStrehl_range t cfg.ntar⟩
  · intro h
    rw [resetSR, if_neg (by rw [h]; exact Bool.false_ne_true)]

theorem resetSR_wiring_witness :
    resetSR wState wConfig = [SupCall.resetStrehl 0]
    ∧ resetSR { wState with allTarget := true } wConfig
      = (List.range wConfig.ntar).map (fun t => SupCall.resetStrehl t) :=
  ⟨(resetSR_wiring wState wConfig).2 rfl,
   ((resetSR_wiring { wState with allTarget := true } wConfig).1 rfl).1⟩

/-! ## C8: the Strehl-history deques -/

/-- The invariant of the three SR history deques: equal lengths, each bounded
by its `maxlen`, equal `maxlen`s of at most 100. -/
def SRInv (st : WState) : Prop :=
  st.SRLE.data.length = st.SRSE.data.length
  ∧ st.SRSE.data.length = st.numiter.data.length
  ∧ st.SRLE.data.length ≤ st.SRLE.maxlen
  ∧ st.SRLE.maxlen = st.SRSE.maxlen
  ∧ st.SRSE.maxlen = st.numiter.maxlen
  ∧ st.SRLE.maxlen ≤ 100

theorem BDeque.push_length {α : Type} (d : BDeque α) (x : α) :
    (d.push x).data.length = min (d.data.length + 1) d.maxlen := by
  rw [BDeque.push]
  simp only [List.length_drop, List.length_append, List.length_singleton]
  omega

/-- C8: `SRSE`, `SRLE` and `numiter` always have equal length and hold at
most 100 entries: they are created as bounded deques of maximum length
`rollingWindow = 100`, `updateSRDisplay` appends exactly one element to each
(dropping the oldest when full), and `clearSR` replaces all three together
with bounded deques of maximum length 20, so the rolling window shrinks to 20
rather than returning to 100. -/
theorem sr_history_invariant (fr : ℚ) (dtar : Nat) (allT fv : Bool) (rn : Nat) (olt : String)
    (st : WState) (srle srse : ℚ) (ni : Nat) :
    (SRInv (initState fr dtar allT fv rn olt)
      ∧ (initState fr dtar allT fv rn olt).SRSE = { maxlen := 100, data := [] }
      ∧ (initState fr dtar allT fv rn olt).SRLE = { maxlen := 100, data := [] }
      ∧ (initState fr dtar allT fv rn olt).numiter = { maxlen := 100, data := [] }
      ∧ rollingWindow = 100)
    ∧ (SRInv st →
        SRInv (updateSRDisplay st srle srse ni)
        ∧ (updateSRDisplay st srle srse ni).SRSE.data.length
            = min (st.SRSE.data.length + 1) st.SRSE.maxlen
        ∧ (updateSRDisplay st srle srse ni).SRLE.data.length
            = min (st.SRLE.data.length + 1) st.SRLE.maxlen
        ∧ (updateSRDisplay st srle srse ni).numiter.data.length
            = min (st.numiter.data.length + 1) st.numiter.maxlen)
    ∧ (SRInv (clearSR st)
        ∧ (clearSR st).SRLE = { maxlen := 20, data := [] }
        ∧ (clearSR st).SRSE = { maxlen := 20, data := [] }
        ∧ (clearSR st).numiter = { maxlen := 20, data := [] })
    ∧ (SRInv st →
        st.SRSE.data.length ≤ 100 ∧ st.SRLE.data.length ≤ 100
        ∧ st.numiter.data.length ≤ 100) := by
  refine ⟨⟨?_, rfl, rfl, rfl, rfl⟩, ?_, ⟨?_, rfl, rfl, rfl⟩, ?_⟩
  · exact ⟨rfl, rfl, by simp [initState, rollingWindow], rfl, rfl, by simp [initState, rollingWindow]⟩
  · intro hinv
    obtain ⟨h1, h2, h3, h4, h5, h6⟩ := hinv
    refine ⟨⟨?_, ?_, ?_, ?_, ?_, ?_⟩, ?_, ?_, ?_⟩ <;>
      simp only [updateSRDisplay, BDeque.push_length] <;>
      first
        | (simp only [BDeque.push]; omega)
        | omega
  · exact ⟨rfl, rfl, by norm_num [clearSR], rfl, rfl, by norm_num [clearSR]⟩
  · intro hinv
    obtain ⟨h1, h2, h3, h4, h5, h6⟩ := hinv
    omega

theorem sr_history_invariant_witness :
    SRInv wState
    ∧ (updateSRDisplay wState (1 / 2) (3 / 4) 7).SRSE.data.length
        = min (wState.SRSE.data.length + 1) wState.SRSE.maxlen := by
  have h := sr_history_invariant 10 0 false false 0 "Close Loop" wState (1 / 2) (3 / 4) 7
  exact ⟨h.1.1, (h.2.1 h.1.1).2.1⟩

/-! ## C9: the `run` countdown -/

theorem runStep_not_forever (st : WState) (hf : st.forever = false) :
    runStep st
      = if st.nbiter - 1 ≤ 0
        then { st with nbiter := st.nbiter - 1, stop := true, runChecked := false }
        else { st with nbiter := st.nbiter - 1 } := by
  rw [runStep, hf]
  simp

theorem runStep_forever (st : WState) (hf : st.forever = true) :
    runStep st
      = if st.nbiter ≤ 0 then { st with stop := true, runChecked := false } else st := by
  rw [runStep, hf]
  simp [hf]

theorem runStep_iterate_lt (st : WState) (hf : st.forever = false) (N : Nat)
    (hn : st.nbiter = (N : Int)) :
    ∀ k, k < N → runStep^[k] st = { st with nbiter := (N : Int) - (k : Int) } := by
  intro k
  induction k with
  | zero =>
    intro _
    rw [Function.iterate_zero_apply]
    show st = { st with nbiter := (N : Int) - ((0 : Nat) : Int) }
    have h0 : (N : Int) - ((0 : Nat) : Int) = st.nbiter := by rw [hn]; push_cast; ring
    rw [h0]
  | succ k ih =>
    intro hk
    rw [Function.iterate_succ_apply', ih (by omega),
        runStep_not_forever { st with nbiter := (N : Int) - (k : Int) } hf]
    rw [if_neg (show ¬((N : Int) - (k : Int) - 1 ≤ 0) from by omega)]
    show ({ st with nbiter := (N : Int) - (k : Int) - 1 } : WState)
        = { st with nbiter := (N : Int) - ((k + 1 : Nat) : Int) }
    have harith : (N : Int) - (k : Int) - 1 = (N : Int) - ((k + 1 : Nat) : Int) := by
      push_cast
      ring
    rw [harith]

/-- C9 (amended): when the "forever" checkbox is unchecked, each `run`
step decrements `nbiter` by one and, as soon as the decremented `nbiter` is 0
or below, sets the stop flag and unchecks the run button, so a loop started
with `N ≥ 1` requested iterations executes exactly `N` run steps before
stopping; when "forever" is checked, `nbiter` is never decremented and `run`
stops the loop on its own only in the degenerate case `nbiter ≤ 0` (with
positive `nbiter` it never stops the loop). -/
theorem run_countdown (st : WState) (N : Nat) :
    (st.forever = false →
        (runStep st).nbiter = st.nbiter - 1
        ∧ (st.nbiter - 1 ≤ 0 → (runStep st).stop = true ∧ (runStep st).runChecked = false)
        ∧ (0 < st.nbiter - 1 → runStep st = { st with nbiter := st.nbiter - 1 }))
    ∧ (st.forever = true →
        (runStep st).nbiter = st.nbiter
        ∧ (0 < st.nbiter → runStep st = st)
        ∧ (st.nbiter ≤ 0 → (runStep st).stop = true ∧ (runStep st).runChecked = false))
    ∧ (st.forever = false → st.stop = false → st.nbiter = (N : Int) → 1 ≤ N →
        ((runStep^[N] st).stop = true ∧ ∀ k, k < N → (runStep^[k] st).stop = false)) := by
  refine ⟨?_, ?_, ?_⟩
  · intro hf
    rw [runStep_not_forever st hf]
    by_cases hle : st.nbiter - 1 ≤ 0
    · rw [if_pos hle]
      exact ⟨rfl, fun _ => ⟨rfl, rfl⟩, fun h => absurd hle (by omega)⟩
    · rw [if_neg hle]
      exact ⟨rfl, fun h => absurd h hle, fun _ => rfl⟩
  · intro hf
    rw [runStep_forever st hf]
    by_cases hle : st.nbiter ≤ 0
    · rw [if_pos hle]
      exact ⟨rfl, fun h => absurd hle (by omega), fun _ => ⟨rfl, rfl⟩⟩
    · rw [if_neg hle]
      exact ⟨rfl, fun _ => rfl, fun h => absurd h hle⟩
  · intro hf hs hn hN
    constructor
    · have hN1 : N - 1 < N := by omega
      have hit : runStep^[N] st = runStep (runStep^[N - 1] st) := by
        conv_lhs => rw [show N = (N - 1) + 1 from by omega]
        rw [Function.iterate_succ_apply']
      rw [hit, runStep_iterate_lt st hf N hn (N - 1) hN1,
          runStep_not_forever { st with nbiter := (N : Int) - ((N - 1 : Nat) : Int) } hf]
      rw [if_pos (show (N : Int) - ((N - 1 : Nat) : Int) - 1 ≤ 0 from by omega)]
    · intro k hk
      rw [runStep_iterate_lt st hf N hn k hk]
      exact hs

/-- Concrete state exhibiting the C9 flaw: forever checked, `nbiter = 0`. -/
def runForeverState : WState := { wState with forever := true, nbiter := 0 }

/-- Counterexample to C9 as stated: with the "forever" checkbox checked
and `nbiter = 0` (reachable by starting the loop with the nbiters box at 0),
`run` does not decrement `nbiter` but still sets the stop flag — so "run
never stops the loop on its own" fails. -/
theorem run_forever_stops_counterexample :
    runForeverState.forever = true ∧ runForeverState.stop = false
    ∧ (runStep runForeverState).nbiter = runForeverState.nbiter
    ∧ (runStep runForeverState).stop = true :=
  ⟨rfl, rfl, rfl, rfl⟩

theorem run_countdown_witness :
    ((runStep^[3] { wState with nbiter := 3 }).stop = true
      ∧ ∀ k, k < 3 → (runStep^[k] { wState with nbiter := 3 }).stop = false)
    ∧ (runStep { wState with forever := true, nbiter := 5 })
        = { wState with forever := true, nbiter := 5 } := by
  constructor
  · exact (run_countdown { wState with nbiter := 3 } 3).2.2 rfl rfl rfl (by omega)
  · exact ((run_countdown { wState with forever := true, nbiter := 5 } 0).2.1 rfl).2.1
      (by norm_num)

/-! ## `loopOnce` (lines 617-661) -/

/-- Python `"%1.2f   " % q`: fixed-point rendering with two decimals (the
rounding mode at exact ties is immaterial for the claims) followed by the
three spaces the widget puts between per-target Strehl values. -/
def fmt2 (q : ℚ) : String :=
  let r : Int := round (q * 100)
  let sign := if r < 0 then "-" else ""
  let a := r.natAbs
  sign ++ natToString (a / 100) ++ "."
    ++ (if a % 100 < 10 then "0" else "") ++ natToString (a % 100) ++ "   "

/-- The guard structure of `loopOnce`: the non-blocking `loopLock.acquire`
with early return (printing "Display locked"), and the
`try`/`except`/`finally` that runs the body, catches any exception it raises
(printing "error!!"), and always releases the lock.  `body` returns the new
state, the supervisor calls made, and whether it completed without raising;
quantifying over `body` models exceptions escaping from any point of the
body with arbitrary partial effects. -/
def loopOnceWith (body : WState → WState × List SupCall × Bool) (st : WState) :
    WState × List SupCall × List String :=
  if st.lockHeld then (st, [], ["Display locked"])
  else
    let r := body { st with lockHeld := true }
    ({ r.1 with lockHeld := false }, r.2.1, if r.2.2 then [] else ["error!!"])

/-- One step of the per-target SR loop (lines 634-642): fetch `getStrehl(t)`,
push the point into the SR plot when `t` is the target selected in
`wao_dispSR_tar` (which also reads the frame counter), and append the values
to the SE/LE signals. -/
def srRefreshStep (sup : Supervisor) (acc : WState × List SupCall × List ℚ × List ℚ)
    (t : Nat) : WState × List SupCall × List ℚ × List ℚ :=
  let SR := sup.strehl t
  let st := acc.1
  let a :=
    if t = st.dispSRTar then
      (updateSRDisplay st SR.2 SR.1 sup.frameCounter,
       acc.2.1 ++ SupCall.getStrehl t :: [SupCall.getFrameCounter])
    else (st, acc.2.1 ++ [SupCall.getStrehl t])
  (a.1, a.2, acc.2.2.1 ++ [SR.1], acc.2.2.2 ++ [SR.2])

/-- The body of `loopOnce` (lines 622-657): one `singleNext`, the
`comp_image()` loop over the simulation targets, then — only when the time
since the last recorded refresh exceeds `1 / frameRate` — the SR loop, the
SE/LE text updates, the loop-frequency update, and `refreshTime = start`.
The wall-clock readings are parameters: `t0` is `start` (line 623), `t1` the
`time.time()` of line 627, `t2` the one of the comparison on line 631. -/
def loopOnceBody (sup : Supervisor) (t0 t1 t2 : ℚ) (st : WState) :
    WState × List SupCall :=
  let tr := SupCall.singleNext :: (List.range sup.ntargets).map (fun t => SupCall.compImage t)
  let loopTime := t1 - t0
  let refreshDisplayTime := 1 / st.frameRate
  if t2 - st.refreshTime > refreshDisplayTime then
    let r := (List.range sup.ntargets).foldl (srRefreshStep sup) (st, tr, [], [])
    let currentFreq := 1 / loopTime
    let st1 := { r.1 with strehlSEText := String.join (r.2.2.1.map fmt2),
                          strehlLEText := String.join (r.2.2.2.map fmt2),
                          currentFreq := currentFreq }
    ({ st1 with refreshTime := t0 }, r.2.1)
  else (st, tr)

/-- Function `loopOnce` with the body completing normally. -/
def loopOnce (sup : Supervisor) (t0 t1 t2 : ℚ) (st : WState) :
    WState × List SupCall × List String :=
  loopOnceWith (fun s =>
    let r := loopOnceBody sup t0 t1 t2 s
    (r.1, r.2, true)) st

theorem updateSRDisplay_dispSRTar (st : WState) (a b : ℚ) (c : Nat) :
    (updateSRDisplay st a b c).dispSRTar = st.dispSRTar := rfl

/-- Closed form of the SR-refresh fold. -/
theorem srRefresh_spec (sup : Supervisor) (n : Nat) : ∀ (st : WState) (tr0 : List SupCall)
    (se0 le0 : List ℚ),
    (List.range n).foldl (srRefreshStep sup) (st, tr0, se0, le0)
      = ((if st.dispSRTar < n
          then updateSRDisplay st (sup.strehl st.dispSRTar).2 (sup.strehl st.dispSRTar).1
                 sup.frameCounter
          else st),
         tr0 ++ (List.range n).flatMap (fun t =>
           SupCall.getStrehl t :: if t = st.dispSRTar then [SupCall.getFrameCounter] else []),
         se0 ++ (List.range n).map (fun t => (sup.strehl t).1),
         le0 ++ (List.range n).map (fun t => (sup.strehl t).2)) := by
  induction n with
  | zero => intro st tr0 se0 le0; simp
  | succ n ih =>
    intro st tr0 se0 le0
    rw [List.range_succ, List.foldl_append, ih, List.foldl_cons, List.foldl_nil]
    rw [srRefreshStep]
    by_cases hd : n = st.dispSRTar
    · have hns : ¬ st.dispSRTar < n := by omega
      have hlt : st.dispSRTar < n + 1 := by omega
      rw [if_neg hns, if_pos hlt]
      subst hd
      simp only [if_pos rfl, List.flatMap_append, List.map_append, List.flatMap_cons,
                 List.flatMap_nil, List.map_cons, List.map_nil, List.append_assoc,
                 List.append_nil, updateSRDisplay_dispSRTar]
      exact rfl
    · have hiff : st.dispSRTar < n + 1 ↔ st.dispSRTar < n := by omega
      by_cases hc : st.dispSRTar < n
      · rw [if_pos hc, if_pos (hiff.mpr hc)]
        simp only [updateSRDisplay_dispSRTar]
        rw [if_neg hd]
        simp only [List.flatMap_append, List.map_append, List.flatMap_cons,
                   List.flatMap_nil, List.map_cons, List.map_nil, List.append_assoc,
                   List.append_nil]
        rw [if_neg hd]
      · rw [if_neg hc, if_neg (fun h => hc (hiff.mp h))]
        rw [if_neg hd]
        simp only [List.flatMap_append, List.map_append, List.flatMap_cons,
                   List.flatMap_nil, List.map_cons, List.map_nil, List.append_assoc,
                   List.append_nil]
        rw [if_neg hd]

theorem loopOnce_not_refresh (sup : Supervisor) (t0 t1 t2 : ℚ) (st : WState)
    (hlock : st.lockHeld = false) (hc : ¬(t2 - st.refreshTime > 1 / st.frameRate)) :
    loopOnce sup t0 t1 t2 st
      = ({ st with lockHeld := false },
         SupCall.singleNext :: (List.range sup.ntargets).map (fun t => SupCall.compImage t),
         []) := by
  rw [loopOnce, loopOnceWith, if_neg (by rw [hlock]; exact Bool.false_ne_true)]
  simp only [loopOnceBody]
  rw [if_neg hc]
  exact rfl

theorem loopOnce_refresh (sup : Supervisor) (t0 t1 t2 : ℚ) (st : WState)
    (hlock : st.lockHeld = false) (hc : t2 - st.refreshTime > 1 / st.frameRate) :
    loopOnce sup t0 t1 t2 st
      = ({ (if st.dispSRTar < sup.ntargets
            then updateSRDisplay st (sup.strehl st.dispSRTar).2 (sup.strehl st.dispSRTar).1
                   sup.frameCounter
            else st) with
           strehlSEText := String.join (((List.range sup.ntargets).map
             (fun t => (sup.strehl t).1)).map fmt2),
           strehlLEText := String.join (((List.range sup.ntargets).map
             (fun t => (sup.strehl t).2)).map fmt2),
           currentFreq := 1 / (t1 - t0),
           refreshTime := t0,
           lockHeld := false },
         (SupCall.singleNext :: (List.range sup.ntargets).map (fun t => SupCall.compImage t))
           ++ (List.range sup.ntargets).flatMap (fun t =>
                SupCall.getStrehl t
                  :: if t = st.dispSRTar then [SupCall.getFrameCounter] else []),
         []) := by
  rw [loopOnce, loopOnceWith, if_neg (by rw [hlock]; exact Bool.false_ne_true)]
  simp only [loopOnceBody]
  rw [if_pos hc, srRefresh_spec]
  simp only [List.nil_append]
  by_cases hd : st.dispSRTar < sup.ntargets
  · rw [if_pos hd, if_pos hd]
    exact rfl
  · rw [if_neg hd, if_neg hd]
    exact rfl

/-- C2: display refresh is throttled: on each `loopOnce` the SR plot, the
SE/LE text fields and the loop-frequency display are refreshed only when the
time elapsed since the last recorded refresh exceeds `1 / frameRate`; when it
does not, those displays (and `refreshTime`) are unchanged, and on a refresh
`refreshTime` is set to the start time of the current iteration. -/
theorem loopOnce_throttle (sup : Supervisor) (t0 t1 t2 : ℚ) (st : WState)
    (hlock : st.lockHeld = false) :
    (¬(t2 - st.refreshTime > 1 / st.frameRate) →
        ((loopOnce sup t0 t1 t2 st).1.SRSE = st.SRSE
        ∧ (loopOnce sup t0 t1 t2 st).1.SRLE = st.SRLE
        ∧ (loopOnce sup t0 t1 t2 st).1.numiter = st.numiter
        ∧ (loopOnce sup t0 t1 t2 st).1.strehlSEText = st.strehlSEText
        ∧ (loopOnce sup t0 t1 t2 st).1.strehlLEText = st.strehlLEText
        ∧ (loopOnce sup t0 t1 t2 st).1.currentFreq = st.currentFreq
        ∧ (loopOnce sup t0 t1 t2 st).1.refreshTime = st.refreshTime))
    ∧ ((t2 - st.refreshTime > 1 / st.frameRate) →
        (loopOnce sup t0 t1 t2 st).1.refreshTime = t0) := by
  constructor
  · intro hc
    rw [loopOnce_not_refresh sup t0 t1 t2 st hlock hc]
    exact ⟨rfl, rfl, rfl, rfl, rfl, rfl, rfl⟩
  · intro hc
    rw [loopOnce_refresh sup t0 t1 t2 st hlock hc]

theorem loopOnce_throttle_witness :
    wState.lockHeld = false ∧ (loopOnce wSup 5 5 5 wState).1.refreshTime = 5 := by
  refine ⟨rfl, ?_⟩
  exact (loopOnce_throttle wSup 5 5 5 wState rfl).2 (by norm_num [wState, initState])

theorem count_compImage_map (i k : Nat) :
    (((List.range k).map (fun t => SupCall.compImage t)).count (SupCall.compImage i))
      = if i < k then 1 else 0 := by
  induction k with
  | zero => simp
  | succ k ih =>
    rw [List.range_succ, List.map_append, List.count_append, ih]
    simp only [List.map_cons, List.map_nil, List.count_cons, List.count_nil, beq_iff_eq,
               SupCall.compImage.injEq]
    split_ifs <;> omega

theorem count_map_compImage_eq_zero (k : Nat) (c : SupCall)
    (h : ∀ t, c ≠ SupCall.compImage t) :
    (((List.range k).map (fun t => SupCall.compImage t)).count c) = 0 := by
  rw [List.count_eq_zero]
  intro hm
  obtain ⟨t, _, ht⟩ := List.mem_map.mp hm
  exact h t ht.symm

theorem count_flatMap_getStrehl (d n i : Nat) :
    (((List.range n).flatMap (fun t =>
        SupCall.getStrehl t :: if t = d then [SupCall.getFrameCounter] else [])).count
          (SupCall.getStrehl i))
      = if i < n then 1 else 0 := by
  induction n with
  | zero => simp
  | succ n ih =>
    rw [List.range_succ, List.flatMap_append, List.count_append, ih]
    have h1 : (((SupCall.getStrehl n
          :: if n = d then [SupCall.getFrameCounter] else []) : List SupCall).count
        (SupCall.getStrehl i)) = if i = n then 1 else 0 := by
      rcases eq_or_ne i n with rfl | hin
      · by_cases hnd : i = d <;> simp [hnd, List.count_cons]
      · by_cases hnd : n = d
        · have h2 : ¬d = i := fun h => hin (hnd.trans h).symm
          have h3 : ¬i = d := fun h => hin (h.trans hnd.symm)
          simp [hnd, h2, h3, List.count_cons]
        · have h3 : ¬n = i := fun h => hin h.symm
          simp [hnd, hin, h3, List.count_cons]
    simp only [List.flatMap_cons, List.flatMap_nil, List.append_nil, h1]
    split_ifs <;> omega

theorem count_flatMap_eq_zero (d n : Nat) (c : SupCall)
    (h1 : ∀ t, c ≠ SupCall.getStrehl t) (h2 : c ≠ SupCall.getFrameCounter) :
    (((List.range n).flatMap (fun t =>
        SupCall.getStrehl t :: if t = d then [SupCall.getFrameCounter] else [])).count c)
      = 0 := by
  rw [List.count_eq_zero]
  intro hm
  obtain ⟨t, _, ht⟩ := List.mem_flatMap.mp hm
  rcases List.mem_cons.mp ht with he | he
  · exact h1 t he
  · rcases hnd : (decide (t = d)) with _ | _
    · rw [if_neg (of_decide_eq_false hnd)] at he
      simp at he
    · rw [if_pos (of_decide_eq_true hnd)] at he
      rw [List.mem_singleton] at he
      exact h2 he

/-- C3: a lock-acquiring `loopOnce` drives the simulation only through the
supervisor: exactly one `singleNext` call, one `comp_image()` per simulation
target, and — on a display refresh — every displayed Strehl value obtained
from `getStrehl(t)` for each target `t`: the SE/LE text fields are the
formatted `getStrehl` values and the SR plot point is the `getStrehl` pair of
the selected target; the widget formats but never computes Strehl ratios. -/
theorem loopOnce_supervisor_only (sup : Supervisor) (t0 t1 t2 : ℚ) (st : WState)
    (hlock : st.lockHeld = false) :
    ((loopOnce sup t0 t1 t2 st).2.1.count SupCall.singleNext = 1)
    ∧ (∀ t, (loopOnce sup t0 t1 t2 st).2.1.count (SupCall.compImage t)
        = if t < sup.ntargets then 1 else 0)
    ∧ ((t2 - st.refreshTime > 1 / st.frameRate) →
        ((loopOnce sup t0 t1 t2 st).1.strehlSEText
            = String.join (((List.range sup.ntargets).map (fun t => (sup.strehl t).1)).map fmt2)
        ∧ (loopOnce sup t0 t1 t2 st).1.strehlLEText
            = String.join (((List.range sup.ntargets).map (fun t => (sup.strehl t).2)).map fmt2)
        ∧ (∀ t, (loopOnce sup t0 t1 t2 st).2.1.count (SupCall.getStrehl t)
            = if t < sup.ntargets then 1 else 0)
        ∧ (st.dispSRTar < sup.ntargets →
            (loopOnce sup t0 t1 t2 st).1.SRSE = st.SRSE.push (sup.strehl st.dispSRTar).1
            ∧ (loopOnce sup t0 t1 t2 st).1.SRLE = st.SRLE.push (sup.strehl st.dispSRTar).2
            ∧ (loopOnce sup t0 t1 t2 st).1.numiter = st.numiter.push sup.frameCounter)))
    ∧ (¬(t2 - st.refreshTime > 1 / st.frameRate) →
        ∀ t, (loopOnce sup t0 t1 t2 st).2.1.count (SupCall.getStrehl t) = 0) := by
  by_cases hc : t2 - st.refreshTime > 1 / st.frameRate
  · rw [loopOnce_refresh sup t0 t1 t2 st hlock hc]
    refine ⟨?_, ?_, ?_, ?_⟩
    · rw [List.count_append, List.count_cons_self,
          count_map_compImage_eq_zero _ _ (fun t h => SupCall.noConfusion h),
          count_flatMap_eq_zero _ _ _ (fun t h => SupCall.noConfusion h)
            (fun h => SupCall.noConfusion h)]
    · intro t
      rw [List.count_append, List.count_cons_of_ne (fun h => SupCall.noConfusion h),
          count_compImage_map,
          count_flatMap_eq_zero _ _ _ (fun u h => SupCall.noConfusion h)
            (fun h => SupCall.noConfusion h)]
      omega
    · intro _
      refine ⟨rfl, rfl, ?_, ?_⟩
      · intro t
        rw [List.count_append, List.count_cons_of_ne (fun h => SupCall.noConfusion h),
            count_map_compImage_eq_zero _ _ (fun u h => SupCall.noConfusion h),
            count_flatMap_getStrehl]
        omega
      · intro hlt
        rw [if_pos hlt]
        exact ⟨rfl, rfl, rfl⟩
    · intro hnc
      exact absurd hc hnc
  · rw [loopOnce_not_refresh sup t0 t1 t2 st hlock hc]
    refine ⟨?_, ?_, fun h => absurd h hc, ?_⟩
    · rw [List.count_cons_self,
          count_map_compImage_eq_zero _ _ (fun t h => SupCall.noConfusion h)]
    · intro t
      rw [List.count_cons_of_ne (fun h => SupCall.noConfusion h), count_compImage_map]
    · intro _ t
      rw [List.count_cons_of_ne (fun h => SupCall.noConfusion h),
          count_map_compImage_eq_zero _ _ (fun u h => SupCall.noConfusion h)]

theorem loopOnce_supervisor_only_witness :
    (loopOnce wSup 5 5 5 wState).2.1.count SupCall.singleNext = 1
    ∧ (loopOnce wSup 5 5 5 wState).2.1.count (SupCall.getStrehl 1) = 1 := by
  have h := loopOnce_supervisor_only wSup 5 5 5 wState rfl
  refine ⟨h.1, ?_⟩
  have h3 := (h.2.2.1 (by norm_num [wState, initState])).2.2.1 1
  rw [h3]
  norm_num [wSup]

/-- C10: `loopOnce` and `updateDisplay` are guarded: if the display lock
cannot be acquired, `loopOnce` returns immediately with no supervisor call and
no state change (printing "Display locked"), and `updateDisplay` returns
without touching any dock; `updateDisplay` also returns unchanged when the
supervisor is absent, has no `_sim`, or is not initialized; any exception
raised by the body of `loopOnce` is caught (printing "error!!"); and in every
case the lock is released before returning. -/
theorem loop_guards {F : Type} :
    (∀ (body : WState → WState × List SupCall × Bool) (st : WState),
        st.lockHeld = true → loopOnceWith body st = (st, [], ["Display locked"]))
    ∧ (∀ (body : WState → WState × List SupCall × Bool) (st : WState),
        st.lockHeld = false → (loopOnceWith body st).1.lockHeld = false)
    ∧ (∀ (body : WState → WState × List SupCall × Bool) (st : WState),
        st.lockHeld = false → (body { st with lockHeld := true }).2.2 = false →
        (loopOnceWith body st).2.2 = ["error!!"])
    ∧ (∀ (body : WState → WState × List SupCall × Bool) (st : WState),
        st.lockHeld = false → (body { st with lockHeld := true }).2.2 = true →
        (loopOnceWith body st).2.2 = [])
    ∧ (∀ (supIsNone hasSim simIsNone isInit lockHeld : Bool) (sup : DispSup F)
        (ls : Bool) (lt : F → F) (docks : List (DockState F)),
        supIsNone = true ∨ hasSim = false ∨ simIsNone = true ∨ isInit = false →
        updateDisplayRun supIsNone hasSim simIsNone isInit lockHeld sup ls lt docks
          = (docks, [], lockHeld))
    ∧ (∀ (sup : DispSup F) (ls : Bool) (lt : F → F) (docks : List (DockState F)),
        updateDisplayRun false true false true true sup ls lt docks = (docks, [], true)) := by
  refine ⟨?_, ?_, ?_, ?_, ?_, ?_⟩
  · intro body st h
    rw [loopOnceWith, if_pos h]
  · intro body st h
    rw [loopOnceWith, if_neg (by rw [h]; exact Bool.false_ne_true)]
  · intro body st h hexc
    rw [loopOnceWith, if_neg (by rw [h]; exact Bool.false_ne_true)]
    simp [hexc]
  · intro body st h hok
    rw [loopOnceWith, if_neg (by rw [h]; exact Bool.false_ne_true)]
    simp [hok]
  · intro supIsNone hasSim simIsNone isInit lockHeld sup ls lt docks hguard
    rcases hguard with h | h | h | h <;> simp [updateDisplayRun, h]
  · intro sup ls lt docks
    simp [updateDisplayRun]

theorem loop_guards_witness :
    loopOnceWith (fun s => (s, [], false)) { wState with lockHeld := true }
      = ({ wState with lockHeld := true }, [], ["Display locked"])
    ∧ (loopOnceWith (fun s => (s, [], false)) wState).2.2 = ["error!!"]
    ∧ (loopOnceWith (fun s => (s, [], false)) wState).1.lockHeld = false
    ∧ updateDisplayRun true true false true false natDispSup false id
        ([] : List (DockState Nat)) = ([], [], false) := by
  refine ⟨?_, ?_, ?_, ?_⟩
  · exact (loop_guards (F := Nat)).1 _ _ rfl
  · exact (loop_guards (F := Nat)).2.2.1 _ wState rfl rfl
  · exact (loop_guards (F := Nat)).2.1 _ wState rfl
  · exact (loop_guards (F := Nat)).2.2.2.2.1 true true false true false natDispSup false id []
      (Or.inl rfl)

end WidgetAO
